import Mathlib

/-!
Verification development for the `deidentify` Go library (github.com/aliengiraffe/deidentify).

The Go source is shallowly embedded below.  Machine bytes are modelled as `Nat`
(the HMAC-SHA256 digest is an abstract function `String → List Nat` carried by the
`Deidentifier` structure: every theorem quantifying over a `Deidentifier` therefore
holds for every secret key), Go's `(value, error)` pairs are modelled as
`String × Option GoErr`, Go `map[string]map[string]string` state is modelled as a
total function with the Go zero value `""` for missing entries, and out-of-range
slice indexing is modelled by an explicit `panic` constructor of a result type.
Go's `regexp` package (leftmost-first submatch semantics, as documented for
`Find*Submatch`) is modelled by a small fueled backtracking engine over a regex AST;
the pattern constants of the source are translated to that AST.
-/

set_option maxRecDepth 4096

/-- GoErr models Go's `error` values: only the message text is observable here. -/
abbrev GoErr := String

/-! ### Decimal formatting (Go `fmt` verbs `%d`, `%0Nd`) -/

/-- digitChar maps a digit value to its ASCII character, `0 ↦ '0'`, …, `9 ↦ '9'`. -/
def digitChar (d : Nat) : Char := Char.ofNat (48 + d)

/-- natDigitsGo is the fuel-structured worker of `natDigits` (structural
recursion keeps it kernel-computable). -/
def natDigitsGo : Nat → Nat → List Nat
  | 0, n => [n]
  | fuel + 1, n => if n < 10 then [n] else natDigitsGo fuel (n / 10) ++ [n % 10]

/-- natDigits gives the base-10 digits of `n`, most significant first. -/
def natDigits (n : Nat) : List Nat := natDigitsGo n n

/-- decimalStr renders a natural number in decimal, as Go's `%d` does for
nonnegative values. -/
def decimalStr (n : Nat) : String := String.mk ((natDigits n).map digitChar)

/-- padNum renders `n` in decimal left-padded with zeros to width `w`,
as Go's `%0Nd` does for nonnegative values. -/
def padNum (w n : Nat) : String :=
  String.mk (List.replicate (w - (natDigits n).length) '0') ++ decimalStr n

/-! ### Hex encoding (Go `encoding/hex.EncodeToString`) -/

/-- hexDigit maps a value below 16 to its lowercase hex character. -/
def hexDigit (d : Nat) : Char :=
  Char.ofNat (if d < 10 then 48 + d else 87 + d)

/-- hexEncode renders a byte list as lowercase hex, two characters per byte.
Each entry is reduced mod 256 first, reflecting that Go bytes live in 0–255. -/
def hexEncode (bs : List Nat) : String :=
  String.mk (bs.foldr (fun b acc => hexDigit (b % 256 / 16) :: hexDigit (b % 256 % 16) :: acc) [])

/-! ### Basic facts about the formatting helpers -/

theorem natDigitsGo_fuel (n : Nat) : ∀ f f', n ≤ f → n ≤ f' →
    natDigitsGo f n = natDigitsGo f' n := by
  induction n using Nat.strong_induction_on with
  | _ n ih =>
    intro f f' hf hf'
    by_cases h10 : n < 10
    · match f, f' with
      | 0, 0 => rfl
      | 0, g' + 1 =>
        have : n = 0 := by omega
        subst this
        simp [natDigitsGo]
      | g + 1, 0 =>
        have : n = 0 := by omega
        subst this
        simp [natDigitsGo]
      | g + 1, g' + 1 => simp [natDigitsGo, h10]
    · match f, f' with
      | 0, _ => omega
      | _ + 1, 0 => omega
      | g + 1, g' + 1 =>
        simp only [natDigitsGo, if_neg h10]
        rw [ih (n / 10) (by omega) g g' (by omega) (by omega)]

theorem natDigits_small (n : Nat) (h : n < 10) : natDigits n = [n] := by
  unfold natDigits
  match n with
  | 0 => rfl
  | g + 1 => simp [natDigitsGo, h]

theorem natDigits_step (n : Nat) (h : 10 ≤ n) :
    natDigits n = natDigits (n / 10) ++ [n % 10] := by
  unfold natDigits
  obtain ⟨g, rfl⟩ : ∃ g, n = g + 1 := ⟨n - 1, by omega⟩
  simp only [natDigitsGo, if_neg (show ¬(g + 1 < 10) by omega)]
  rw [natDigitsGo_fuel ((g + 1) / 10) g ((g + 1) / 10) (by omega) (by omega)]

theorem natDigits_ne_nil (n : Nat) : natDigits n ≠ [] := by
  by_cases h : n < 10
  · simp [natDigits_small n h]
  · rw [natDigits_step n (by omega)]
    simp

theorem natDigits_lt_ten (n : Nat) : ∀ x ∈ natDigits n, x < 10 := by
  induction n using Nat.strong_induction_on with
  | _ n ih =>
    by_cases h : n < 10
    · rw [natDigits_small n h]
      intro x hx
      simp at hx
      omega
    · rw [natDigits_step n (by omega)]
      intro x hx
      simp at hx
      rcases hx with hx | hx
      · exact ih (n / 10) (Nat.div_lt_self (by omega) (by omega)) x hx
      · omega

theorem natDigits_length_le (k : Nat) : ∀ n, n < 10 ^ (k + 1) → (natDigits n).length ≤ k + 1 := by
  induction k with
  | zero =>
    intro n hn
    simp [natDigits_small n (by simpa using hn)]
  | succ k ih =>
    intro n hn
    by_cases h : n < 10
    · simp [natDigits_small n h]
    · rw [natDigits_step n (by omega)]
      have hd : n / 10 < 10 ^ (k + 1) := by
        apply Nat.div_lt_of_lt_mul
        calc n < 10 ^ (k + 1 + 1) := hn
          _ = 10 * 10 ^ (k + 1) := by ring
      have := ih (n / 10) hd
      simp
      omega

theorem natDigits_length_ge (k : Nat) : ∀ n, 10 ^ k ≤ n → k + 1 ≤ (natDigits n).length := by
  induction k with
  | zero => intro n _; have := natDigits_ne_nil n; cases h : natDigits n <;> simp_all
  | succ k ih =>
    intro n hn
    have h10 : 10 ≤ n := by
      have : (10:Nat) ^ 1 ≤ 10 ^ (k + 1) := Nat.pow_le_pow_right (by omega) (by omega)
      simp at this
      omega
    rw [natDigits_step n h10]
    have : 10 ^ k ≤ n / 10 := by
      have := Nat.div_le_div_right (c := 10) hn
      calc 10 ^ k = 10 ^ (k+1) / 10 := by
            rw [Nat.pow_succ, Nat.mul_div_cancel _ (by omega)]
        _ ≤ n / 10 := this
    have := ih (n / 10) this
    simp
    omega

theorem decimalStr_single (d : Nat) (h : d < 10) : decimalStr d = String.mk [digitChar d] := by
  simp [decimalStr, natDigits_small d h]

theorem digitChar_isDigit (d : Nat) (h : d < 10) : (digitChar d).isDigit = true := by
  interval_cases d <;> decide

theorem digitChar_ne_space (d : Nat) (h : d < 10) : digitChar d ≠ ' ' := by
  interval_cases d <;> decide

theorem digitChar_inj (a b : Nat) (ha : a < 10) (hb : b < 10) (h : digitChar a = digitChar b) :
    a = b := by
  interval_cases a <;> interval_cases b <;> simp_all <;> exact absurd h (by decide)

/-- natOfDigits folds a most-significant-first digit list back into a number. -/
def natOfDigits (ds : List Nat) : Nat := ds.foldl (fun acc d => acc * 10 + d) 0

theorem natOfDigits_append (xs ys : List Nat) :
    natOfDigits (xs ++ ys) = ys.foldl (fun acc d => acc * 10 + d) (natOfDigits xs) := by
  simp [natOfDigits, List.foldl_append]

theorem natOfDigits_natDigits (n : Nat) : natOfDigits (natDigits n) = n := by
  induction n using Nat.strong_induction_on with
  | _ n ih =>
    by_cases h : n < 10
    · simp [natDigits_small n h, natOfDigits]
    · rw [natDigits_step n (by omega), natOfDigits_append,
        ih (n / 10) (Nat.div_lt_self (by omega) (by omega))]
      simp
      omega

theorem natDigits_inj (a b : Nat) (h : natDigits a = natDigits b) : a = b := by
  have := natOfDigits_natDigits a
  rw [h, natOfDigits_natDigits] at this
  omega

theorem string_mk_append (a b : List Char) :
    String.mk a ++ String.mk b = String.mk (a ++ b) := rfl

theorem string_data_mk (a : List Char) : (String.mk a).data = a := rfl

theorem string_data_append (s t : String) : (s ++ t).data = s.data ++ t.data := by
  cases s; cases t; rfl

theorem string_length_data (s : String) : s.length = s.data.length := rfl

theorem string_mk_inj (a b : List Char) (h : String.mk a = String.mk b) : a = b := by
  cases h; rfl

theorem string_ne_empty_of_data_ne_nil (s : String) (h : s.data ≠ []) : s ≠ "" := by
  intro hs
  apply h
  rw [hs]

theorem padNum_length (w n : Nat) (h : n < 10 ^ w) (hw : 1 ≤ w) :
    (padNum w n).length = w := by
  have hle : (natDigits n).length ≤ w := by
    obtain ⟨w', rfl⟩ : ∃ w', w = w' + 1 := ⟨w - 1, by omega⟩
    exact natDigits_length_le w' n h
  simp [padNum, string_length_data, string_data_append, decimalStr]
  omega

theorem padNum_eq_decimalStr (w n : Nat) (h : 10 ^ (w - 1) ≤ n) (hw : 1 ≤ w) :
    padNum w n = decimalStr n := by
  have hge : w ≤ (natDigits n).length := by
    have := natDigits_length_ge (w - 1) n h
    omega
  simp [padNum, Nat.sub_eq_zero_of_le hge]

theorem padNum_digits (w n : Nat) : ∀ c ∈ (padNum w n).data, c.isDigit = true := by
  intro c hc
  simp [padNum, string_data_append, decimalStr] at hc
  rcases hc with ⟨-, rfl⟩ | ⟨d, hd, rfl⟩
  · decide
  · exact digitChar_isDigit d (natDigits_lt_ten n d hd)

/-! ### A fueled backtracking regex engine

Go's `regexp` package documents that `Find*Submatch` returns the leftmost match,
and among matches at the leftmost position the one a backtracking search would
find first (greedy/leftmost-first submatch semantics).  The engine below
implements exactly that search order over a small AST covering the constructs
used by the source's patterns.  Fuel bounds `star` unrolling; every starred
subexpression in the source's patterns consumes at least one character per
iteration, so fuel `length + 8` never runs out on a real match. -/

/-- RE is the regex AST: character classes, concatenation, prioritized
alternation, greedy or lazy star, capture groups, the `^` anchor and `\b`. -/
inductive RE where
  | eps : RE
  | cls : (Char → Bool) → RE
  | cat : RE → RE → RE
  | alt : RE → RE → RE
  | star : Bool → RE → RE
  | group : Nat → RE → RE
  | bol : RE
  | wordB : RE

/-- MState is the matcher state: absolute position, previous character (for
word boundaries) and remaining input. -/
structure MState where
  pos : Nat
  prev : Option Char
  rest : List Char

/-- Caps maps a capture-group index to the span it last matched. -/
def Caps := Nat → Option (Nat × Nat)

/-- capsEmpty has no group recorded. -/
def capsEmpty : Caps := fun _ => none

/-- capsSet records the span of one capture group. -/
def capsSet (caps : Caps) (i : Nat) (span : Nat × Nat) : Caps :=
  fun j => if j = i then some span else caps j

/-- isWordChar is Go's `\w` class `[0-9A-Za-z_]`. -/
def isWordChar (c : Char) : Bool :=
  c.isDigit || (('A' ≤ c && c ≤ 'Z') || ('a' ≤ c && c ≤ 'z')) || c = '_'

/-- matchRE runs `r` at `st` in continuation-passing style; `<|>` encodes the
backtracking priority order (first alternative preferred, greedy star prefers
one more iteration, lazy star prefers none).  Fuel burns on every step so the
recursion is structural (kernel-computable); `reFuel` is generous enough that
it never runs dry on the source's patterns. -/
def matchRE (fuel : Nat) (r : RE) (st : MState) (caps : Caps)
    (k : MState → Caps → Option (MState × Caps)) : Option (MState × Caps) :=
  match fuel with
  | 0 => none
  | fuel + 1 =>
    match r with
    | .eps => k st caps
    | .cls p =>
      match st.rest with
      | [] => none
      | c :: cs => if p c then k ⟨st.pos + 1, some c, cs⟩ caps else none
    | .cat a b => matchRE fuel a st caps (fun st' caps' => matchRE fuel b st' caps' k)
    | .alt a b => matchRE fuel a st caps k <|> matchRE fuel b st caps k
    | .star greedy a =>
      if greedy then
        (matchRE fuel a st caps (fun st' caps' =>
          matchRE fuel (.star greedy a) st' caps' k)) <|> k st caps
      else
        k st caps <|> (matchRE fuel a st caps (fun st' caps' =>
          matchRE fuel (.star greedy a) st' caps' k))
    | .group i a =>
      matchRE fuel a st caps (fun st' caps' => k st' (capsSet caps' i (st.pos, st'.pos)))
    | .bol => if st.pos = 0 then k st caps else none
    | .wordB =>
      let before := match st.prev with | some c => isWordChar c | none => false
      let after := match st.rest with | c :: _ => isWordChar c | [] => false
      if before ≠ after then k st caps else none

/-- reSearch finds the leftmost match of `r` at position ≥ `pos`; it returns
the match span and the captures, like Go's leftmost-first search. -/
def reSearch (fuel : Nat) (r : RE) (pos : Nat) (prev : Option Char) (rest : List Char) :
    Option (Nat × Nat × Caps) :=
  match matchRE fuel r ⟨pos, prev, rest⟩ capsEmpty (fun st caps => some (st, caps)) with
  | some (st, caps) => some (pos, st.pos, caps)
  | none =>
    match rest with
    | [] => none
    | c :: cs => reSearch fuel r (pos + 1) (some c) cs

/-- reFuel is the fuel budget used for a given input: far more than the
deepest chain of matcher steps any of the source's patterns can take on it. -/
def reFuel (s : List Char) : Nat := (s.length + 2) * 16384

/-- substrRange extracts the substring of `s` between absolute positions `a`
and `b`. -/
def substrRange (s : List Char) (a b : Nat) : String :=
  String.mk ((s.drop a).take (b - a))

/-- reMatchString models Go's `Regexp.MatchString`. -/
def reMatchString (r : RE) (s : String) : Bool :=
  (reSearch (reFuel s.data) r 0 none s.data).isSome

/-- reFindStringSubmatch models Go's `Regexp.FindStringSubmatch` restricted to
the group indices `1..n` (entry 0 is the full match); an unmatched group is the
empty string, and `none` models the nil slice returned when there is no match. -/
def reFindStringSubmatch (r : RE) (n : Nat) (s : String) : Option (List String) :=
  match reSearch (reFuel s.data) r 0 none s.data with
  | none => none
  | some (a, b, caps) =>
    some (substrRange s.data a b ::
      (List.range n).map (fun i =>
        match caps (i + 1) with
        | some (ga, gb) => substrRange s.data ga gb
        | none => ""))

/-- replaceLoop is the scanner behind `reReplaceAllFunc`: it repeatedly finds
the leftmost match at or after the current position, feeds the matched text to
the callback (which may update the threaded state `σ`), and copies everything
else verbatim.  After an empty match it advances one character, as Go does. -/
def replaceLoop {σ : Type} (fuel : Nat) (r : RE) (f : String → σ → String × σ) :
    Nat → Option Char → List Char → List Char → σ → List Char × σ :=
  fun pos prev rest acc st =>
    match fuel with
    | 0 => (acc ++ rest, st)
    | fuel' + 1 =>
      match reSearch (reFuel rest) r pos prev rest with
      | none => (acc ++ rest, st)
      | some (a, b, _) =>
        let skipped := rest.take (a - pos)
        let matched := (rest.drop (a - pos)).take (b - a)
        let (rep, st') := f (String.mk matched) st
        if b > a then
          let newPrev := matched.getLast? <|> prev
          replaceLoop fuel' r f b newPrev (rest.drop (a - pos + (b - a)))
            (acc ++ skipped ++ rep.data) st'
        else
          match rest.drop (a - pos) with
          | [] => (acc ++ skipped ++ rep.data, st')
          | c :: cs =>
            replaceLoop fuel' r f (a + 1) (some c) cs (acc ++ skipped ++ rep.data ++ [c]) st'

/-- reReplaceAllFunc models Go's `Regexp.ReplaceAllStringFunc`, with a state
value `σ` threaded through the callback (the Go callbacks close over the
`Deidentifier`, whose mapping tables they update). -/
def reReplaceAllFunc {σ : Type} (r : RE) (f : String → σ → String × σ) (s : String) (st : σ) :
    String × σ :=
  let (out, st') := replaceLoop (s.data.length + 1) r f 0 none s.data [] st
  (String.mk out, st')

/-! ### Regex AST builders used to translate the source's pattern strings -/

/-- chr matches one exact character. -/
def chr (c : Char) : RE := .cls (fun x => x = c)

/-- chrCI matches one character case-insensitively, modelling a literal under
the `(?i)` flag. -/
def chrCI (c : Char) : RE := .cls (fun x => x.toLower = c.toLower)

/-- litStr matches a literal string, case-sensitively or not. -/
def litStr (ci : Bool) (s : String) : RE :=
  s.data.foldr (fun c acc => .cat (if ci then chrCI c else chr c) acc) .eps

/-- dChar is Go's `\d`, the digits `0`–`9`. -/
def dChar : RE := .cls Char.isDigit

/-- sChar is Go's `\s`, the class `[\t\n\f\r ]`. -/
def sChar : RE :=
  .cls (fun c => c = ' ' || c = '\t' || c = '\n' || c = Char.ofNat 12 || c = '\r')

/-- wChar is Go's `\w`. -/
def wChar : RE := .cls isWordChar

/-- letterChar models `[A-Za-z\p{L}]`.  Go's `\p{L}` is the full Unicode letter
class; `Char.isAlpha` restricts to ASCII letters, which is the only part the
claims below depend on. -/
def letterChar : RE := .cls Char.isAlpha

/-- opt is `?` (greedy when the flag is true). -/
def opt (greedy : Bool) (r : RE) : RE :=
  if greedy then .alt r .eps else .alt .eps r

/-- plus is `+`. -/
def plus (greedy : Bool) (r : RE) : RE := .cat r (.star greedy r)

/-- repN is `{n}`. -/
def repN (n : Nat) (r : RE) : RE :=
  match n with
  | 0 => .eps
  | n + 1 => .cat r (repN n r)

/-- repAtLeast is `{n,}`. -/
def repAtLeast (n : Nat) (r : RE) : RE := .cat (repN n r) (.star true r)

/-- catList concatenates a list of regexes. -/
def catList (rs : List RE) : RE := rs.foldr .cat .eps

/-- altList is a prioritized alternation, first entry preferred. -/
def altList (rs : List RE) : RE :=
  match rs with
  | [] => .eps
  | [r] => r
  | r :: rest => .alt r (altList rest)

/-- gazEntry translates one alternative of the gazetteer patterns: letters and
periods are case-insensitive literals and a space stands for `\s+`, exactly the
shape (`Burkina\s+Faso`, `U\.S\.A\.`, `St\.\s+Petersburg`) used in the source. -/
def gazEntry (s : String) : RE :=
  s.data.foldr (fun c acc => .cat (if c = ' ' then plus true sChar else chrCI c) acc) .eps

/-- gazAlt is a case-insensitive alternation of gazetteer entries. -/
def gazAlt (entries : List String) : RE := altList (entries.map gazEntry)

/-! ### Lookup tables (the source's string-lists file) -/

/-- firstNameOptions is the lookup table of the source string-lists file. -/
def firstNameOptions : List String := [
  "Alex", "Jordan", "Taylor", "Casey", "Morgan", "Riley", "Avery", "Quinn", "Sage", "Blake",
  "Jamie", "Dakota", "Charlie", "Hayden", "Emerson", "Rowan", "Parker", "Cameron", "Finley",
  "Drew", "River", "Skyler", "Peyton", "Reese", "Kendall", "Logan", "Robin", "Jesse", "Harley",
  "Dallas", "Remy", "Scout", "Shawn", "Devon", "Kelly", "Adrian", "Jackie", "Angel", "Leslie",
  "Justice", "Sydney", "Elliott", "Addison", "Kai", "Marley", "Shannon", "Ali", "Zion", "Phoenix",
  "Eden", "Harper", "Sawyer", "Micah", "Jules", "Spencer", "Jayden", "Ashton", "Luca", "Kerry",
  "Avery", "Erin", "Shane", "Marlow", "Austin", "Rory", "Lennon", "Jaden", "Jude", "Nova", "Noel",
  "Kennedy", "Shay", "Laine", "Kris", "Frankie", "Haven", "Gray", "Amari", "Sasha", "Lennox",
  "Tatum", "Izzy", "Winter", "Cassidy", "Pat", "Keegan", "Lyric", "Blair", "Briar", "Ellis",
  "Oakley", "Shiloh", "Salem", "Sutton", "Arden", "Cypress", "Lee", "Finley", "Wren", "Bellamy",
  "Billie", "Armani", "Jaime", "Storm", "Alva", "Rio", "Marlo", "Milan", "Sidney", "Royal",
  "Ronnie", "Sky", "Jett", "Remi", "Kit", "Perry", "Lake", "Sol", "Oak", "Mica"]

/-- lastNameOptions is the lookup table of the source string-lists file. -/
def lastNameOptions : List String := [
  "Smith", "Johnson", "Williams", "Brown", "Jones", "Garcia", "Miller", "Davis", "Rodriguez",
  "Martinez", "Hernandez", "Lopez", "Gonzalez", "Wilson", "Anderson", "Thomas", "Taylor", "Moore",
  "Jackson", "Martin", "Lee", "Perez", "Thompson", "White", "Harris", "Sanchez", "Clark",
  "Ramirez", "Lewis", "Robinson", "Walker", "Young", "Allen", "King", "Wright", "Scott", "Torres",
  "Nguyen", "Hill", "Flores", "Green", "Adams", "Nelson", "Baker", "Hall", "Rivera", "Campbell",
  "Mitchell", "Carter", "Roberts", "Gomez", "Phillips", "Evans", "Turner", "Diaz", "Parker",
  "Cruz", "Edwards", "Collins", "Reyes", "Stewart", "Morris", "Morales", "Murphy", "Cook",
  "Rogers", "Gutierrez", "Ortiz", "Morgan", "Cooper", "Peterson", "Bailey", "Reed", "Kelly",
  "Howard", "Ramos", "Kim", "Cox", "Ward", "Richardson", "Watson", "Brooks", "Chavez", "Wood",
  "James", "Bennett", "Gray", "Mendoza", "Ruiz", "Hughes", "Price", "Alvarez", "Castillo",
  "Sanders", "Patel", "Myers", "Long", "Ross", "Foster", "Jimenez", "Powell", "Jenkins", "Perry",
  "Russell", "Sullivan", "Bell", "Coleman", "Butler", "Henderson", "Barnes", "Gonzales", "Fisher",
  "Vasquez", "Simmons", "Romero", "Jordan", "Patterson", "Alexander", "Hamilton", "Graham",
  "Reynolds", "Griffin", "Wallace", "Moreno", "West", "Cole", "Hayes", "Bryant", "Herrera",
  "Gibson"]

/-- emailDomainOptions is the lookup table of the source string-lists file. -/
def emailDomainOptions : List String := [
  "example.com", "testmail.org", "sample.net", "demo.co", "placeholder.io", "test.com",
  "acme.org", "mail.net", "noreply.co", "company.io", "secure.net", "private.email", "mock.com",
  "temporary.org", "proxy.net", "anon.co", "redacted.io", "pseudo.com", "example.org",
  "example.net", "example.io", "test.org", "test.net", "test.io", "sample.org", "sample.io",
  "demo.org", "demo.net", "placeholder.org", "placeholder.net", "acme.com", "acme.net", "acme.io",
  "mail.com", "mail.org", "mail.io", "noreply.com", "noreply.org", "noreply.net", "company.com",
  "company.org", "company.net", "secure.com", "secure.org", "secure.io", "private.com",
  "private.org", "private.net", "mock.org", "mock.net", "mock.io", "temporary.com",
  "temporary.net", "temporary.io", "proxy.com", "proxy.org", "proxy.io", "anon.com", "anon.org",
  "anon.net", "redacted.com", "redacted.org", "redacted.net", "pseudo.org", "pseudo.net",
  "pseudo.io", "dummy.com", "dummy.org", "dummy.net", "dummy.io", "invalid.com", "invalid.org",
  "invalid.net", "invalid.io", "nowhere.com", "nowhere.org", "nowhere.net", "nowhere.io",
  "null.com", "null.org", "null.net", "null.io", "void.com", "void.org", "void.net", "void.io",
  "empty.com", "empty.org", "empty.net", "empty.io", "masked.com", "masked.org", "masked.net",
  "masked.io", "hidden.com", "hidden.org", "hidden.net", "hidden.io", "anonymous.com",
  "anonymous.org", "anonymous.net", "anonymous.io", "privacy.com", "privacy.org", "privacy.net"]

/-- emailUsernameOptions is the lookup table of the source string-lists file. -/
def emailUsernameOptions : List String := [
  "user", "test", "demo", "sample", "client", "member", "account", "profile", "person", "contact",
  "info", "support", "admin", "help", "service", "mail", "email", "inbox", "webmaster",
  "customer", "guest", "anonymous", "user123", "tester", "demouser", "testuser", "newuser",
  "tempuser", "randomuser", "sampleuser", "clientuser", "memberuser", "accountuser",
  "profileuser", "personuser", "contactuser", "infouser", "supportuser", "adminuser", "helpuser",
  "serviceuser", "mailuser", "emailuser", "inboxuser", "webmasteruser", "customeruser",
  "guestuser", "anonymoususer", "example", "noreply", "donotreply", "no-reply", "feedback",
  "hello", "hi", "notification", "alerts", "system", "automate", "bot", "robot", "data",
  "testdata", "sampledata", "mockdata", "fakedata", "placeholder", "temp", "temporary",
  "disposable", "dummy", "null", "void", "none", "empty", "blank", "zero", "nil", "undefined",
  "default", "standard", "generic", "common", "normal", "typical", "regular", "routine",
  "ordinary", "usual", "customary", "general", "universal", "global", "worldwide",
  "international", "national", "regional", "local", "personal", "individual", "private", "public",
  "shared", "common", "mutual", "joint", "collective", "combined", "merged", "unified"]

/-- streetNameOptions is the lookup table of the source string-lists file. -/
def streetNameOptions : List String := [
  "Main St", "Oak Ave", "Pine Rd", "Elm Way", "Park Blvd", "First St", "Second Ave", "Third Rd",
  "Fourth St", "Fifth Ave", "Maple Dr", "Cedar Ln", "Walnut St", "Cherry Ave", "Washington Blvd",
  "Lincoln Rd", "Jefferson St", "Adams Ave", "Madison Dr", "Jackson Blvd", "Highland Ave",
  "Valley Rd", "Forest Dr", "Meadow Ln", "River St", "Lake Ave", "Sunset Blvd", "Sunrise Dr",
  "Hill Rd", "Mountain View Ave", "Spring St", "Summer Rd", "Autumn Ave", "Winter Dr", "North St",
  "South Ave", "East Rd", "West Blvd", "Central Dr", "Union St", "Division Ave", "Grove Rd",
  "Spruce St", "Willow Ave", "Hickory Dr", "Birch Ln", "Sycamore St", "Poplar Ave", "Aspen Rd",
  "Cypress Dr", "Lakeview St", "Hillside Ave", "Summit Rd", "Ridge Dr", "Highland Park Ave",
  "Crescent St", "Woodland Rd", "Meadowlark Ln", "Colonial Dr", "Heritage Ave", "Liberty St",
  "Freedom Rd", "Independence Ave", "Victory Dr", "Patriot St", "Pioneer Rd", "Frontier Ave",
  "Homestead Dr", "Prairie St", "Plains Rd", "Desert Ave", "Ocean Dr", "Beach St", "Shore Rd",
  "Bay Ave", "Harbor Dr", "Port St", "Dock Rd", "Marina Ave", "Lighthouse Dr", "Beacon St",
  "College Rd", "University Ave", "Campus Dr", "School St", "Academy Rd", "Church Ave",
  "Chapel Dr", "Temple St", "Seminary Rd", "Market Ave", "Commerce Dr", "Business St",
  "Industry Rd", "Corporate Ave", "Office Dr", "Plaza St", "Center Rd", "Town Square",
  "Village Green", "Garden St", "Orchard Rd", "Farm Ave", "Ranch Dr", "Estate St", "Manor Rd",
  "Castle Ave", "Palace Dr", "Royal St", "Crown Rd", "Rue de la Paix",
  "Avenue des Champs-Élysées", "Via Roma", "Calle Mayor", "Königstraße", "Hauptstraße",
  "High Street", "Baker Street", "Oxford Street", "Strand", "Gran Vía", "Passeig de Gràcia",
  "Chang'an Avenue", "Nanjing Road", "Orchard Road", "Shinjuku Dori", "Ginza Dori",
  "Sukhumvit Road", "Plaza Mayor", "Via Veneto", "Friedrichstraße", "Bond Street", "Broadway",
  "Champs-Élysées", "Sheikh Zayed Road", "Las Ramblas", "Nevsky Prospekt", "Puerta del Sol",
  "Andrássy Avenue", "Khao San Road"]

/-! ### Pattern constants (the source's pattern file, translated to the AST) -/

/-- isGoSpace is the character set of Go's `\s`: tab, newline, form feed,
carriage return and space. -/
def isGoSpace (c : Char) : Bool :=
  c = ' ' || c = '\t' || c = '\n' || c = Char.ofNat 12 || c = '\r'

/-- asciiUpper is the class `[A-Z]`. -/
def asciiUpper : RE := .cls (fun c => 'A' ≤ c && c ≤ 'Z')

/-- asciiLower is the class `[a-z]`. -/
def asciiLower : RE := .cls (fun c => 'a' ≤ c && c ≤ 'z')

/-- asciiAlphaB tells whether `c` is an ASCII letter. -/
def asciiAlphaB (c : Char) : Bool := ('A' ≤ c && c ≤ 'Z') || ('a' ≤ c && c ≤ 'z')

/-- apostropheChar is the `'` character. -/
def apostropheChar : Char := Char.ofNat 39

/-- sepChar is the class `[\s.-]`. -/
def sepChar : RE := .cls (fun c => isGoSpace c || c = '.' || c = '-')

/-- spaceComma is the class `[\s,]`. -/
def spaceComma : RE := .cls (fun c => isGoSpace c || c = ',')

/-- wordSepClass is the class `[\s'-]`. -/
def wordSepClass : RE := .cls (fun c => isGoSpace c || c = apostropheChar || c = '-')

/-- emailRegexPattern is `[a-zA-Z0-9._%+-]+@[a-zA-Z0-9.-]+\.[a-zA-Z]{2,}`. -/
def emailRegexPattern : RE :=
  catList [
    plus true (.cls (fun c => asciiAlphaB c || c.isDigit || c = '.' || c = '_' || c = '%' ||
      c = '+' || c = '-')),
    chr '@',
    plus true (.cls (fun c => asciiAlphaB c || c.isDigit || c = '.' || c = '-')),
    chr '.',
    repAtLeast 2 (.cls asciiAlphaB)]

/-- phoneRegexPattern is `(\+\d{1,2}\s)?\(?\d{3}\)?[\s.-]?\d{3}[\s.-]?\d{4}`. -/
def phoneRegexPattern : RE :=
  catList [
    opt true (.group 1 (catList [chr '+', dChar, opt true dChar, sChar])),
    opt true (chr '('),
    repN 3 dChar,
    opt true (chr ')'),
    opt true sepChar,
    repN 3 dChar,
    opt true sepChar,
    repN 4 dChar]

/-- ssnRegexPattern is `\d{3}[- ]?\d{2}[- ]?\d{4}`. -/
def ssnRegexPattern : RE :=
  catList [
    repN 3 dChar,
    opt true (.cls (fun c => c = '-' || c = ' ')),
    repN 2 dChar,
    opt true (.cls (fun c => c = '-' || c = ' ')),
    repN 4 dChar]

/-- ssnSpaceRegexPattern is `[ ]`. -/
def ssnSpaceRegexPattern : RE := chr ' '

/-- ssnHyphenRegexPattern is `[-]`. -/
def ssnHyphenRegexPattern : RE := chr '-'

/-- ssnContextRegexPattern is `(?i)SSN|social security`. -/
def ssnContextRegexPattern : RE := .alt (litStr true "SSN") (litStr true "social security")

/-- creditCardRegexPattern is `\d{4}[\s-]?\d{4}[\s-]?\d{4}[\s-]?\d{4}`. -/
def creditCardRegexPattern : RE :=
  catList [
    repN 4 dChar,
    opt true (.cls (fun c => isGoSpace c || c = '-')),
    repN 4 dChar,
    opt true (.cls (fun c => isGoSpace c || c = '-')),
    repN 4 dChar,
    opt true (.cls (fun c => isGoSpace c || c = '-')),
    repN 4 dChar]

/-- nameRegexPattern is `\b[A-Z][a-z]+ [A-Z][a-z]+\b`. -/
def nameRegexPattern : RE :=
  catList [.wordB, asciiUpper, plus true asciiLower, chr ' ',
    asciiUpper, plus true asciiLower, .wordB]

/-- streetTypeWords lists the alternatives of `addressWordRegexPattern`. -/
def streetTypeWords : List String :=
  ["Street", "Avenue", "Road", "Lane", "Drive", "Boulevard", "Blvd", "Way", "Plaza", "Square",
   "Court", "Terrace", "Place", "Circle", "Alley", "Row", "Highway", "Hwy", "Parkway", "Path",
   "Trail", "Crescent", "Rue", "Strasse", "Straße", "Calle", "Via", "Viale", "Avenida", "Carrer",
   "Straat", "Gasse", "Weg", "Camino", "Ulica", "Utca", "Prospekt", "Dori", "Jalan", "Marg",
   "Dao", "Jie", "Lu"]

/-- addressWordRegexPattern is `(?i)\b(Street|…|Lu)\b`. -/
def addressWordRegexPattern : RE :=
  catList [.wordB, .group 1 (altList (streetTypeWords.map (litStr true))), .wordB]

/-- internationalStreetWords lists the alternatives of
`internationalAddressRegexPattern` (the source writes them in lowercase and
drops `Hwy`). -/
def internationalStreetWords : List String :=
  ["street", "avenue", "road", "lane", "drive", "boulevard", "blvd", "way", "plaza", "square",
   "court", "terrace", "place", "circle", "alley", "row", "highway", "parkway", "path", "trail",
   "crescent", "rue", "strasse", "straße", "calle", "via", "viale", "avenida", "carrer", "straat",
   "gasse", "weg", "camino", "ulica", "utca", "prospekt", "dori", "jalan", "marg", "dao", "jie",
   "lu"]

/-- internationalAddressRegexPattern is `(?i)(street|…|lu)`. -/
def internationalAddressRegexPattern : RE :=
  .group 1 (altList (internationalStreetWords.map (litStr true)))

/-- countryNameEntries lists the alternatives of `countryNameRegexPattern`; a space stands for the `\\s+` of the source and a period for `\\.`. -/
def countryNameEntries : List String := [
  "Afghanistan", "Albania", "Algeria", "Andorra", "Angola", "Argentina", "Armenia", "Australia",
  "Austria", "Azerbaijan", "Bahamas", "Bahrain", "Bangladesh", "Barbados", "Belarus", "Belgium",
  "Belize", "Benin", "Bhutan", "Bolivia", "Bosnia", "Brazil", "Brunei", "Bulgaria",
  "Burkina Faso", "Burundi", "Cambodia", "Cameroon", "Canada", "Chad", "Chile", "China",
  "Colombia", "Comoros", "Congo", "Costa Rica", "Croatia", "Cuba", "Cyprus", "Czech", "Denmark",
  "Djibouti", "Dominica", "Dominican Republic", "Ecuador", "Egypt", "El Salvador", "Eritrea",
  "Estonia", "Eswatini", "Ethiopia", "Fiji", "Finland", "France", "Gabon", "Gambia", "Georgia",
  "Germany", "Ghana", "Greece", "Grenada", "Guatemala", "Guinea", "Guyana", "Haiti", "Honduras",
  "Hungary", "Iceland", "India", "Indonesia", "Iran", "Iraq", "Ireland", "Israel", "Italy",
  "Jamaica", "Japan", "Jordan", "Kazakhstan", "Kenya", "Kiribati", "Korea", "Kuwait",
  "Kyrgyzstan", "Laos", "Latvia", "Lebanon", "Lesotho", "Liberia", "Libya", "Liechtenstein",
  "Lithuania", "Luxembourg", "Madagascar", "Malawi", "Malaysia", "Maldives", "Mali", "Malta",
  "Mauritania", "Mauritius", "Mexico", "Micronesia", "Moldova", "Monaco", "Mongolia",
  "Montenegro", "Morocco", "Mozambique", "Myanmar", "Namibia", "Nauru", "Nepal", "Netherlands",
  "New Zealand", "Nicaragua", "Niger", "Nigeria", "Norway", "Oman", "Pakistan", "Palau", "Panama",
  "Papua New Guinea", "Paraguay", "Peru", "Philippines", "Poland", "Portugal", "Qatar", "Romania",
  "Russia", "Rwanda", "Samoa", "San Marino", "Saudi Arabia", "Senegal", "Serbia", "Seychelles",
  "Sierra Leone", "Singapore", "Slovakia", "Slovenia", "Solomon Islands", "Somalia",
  "South Africa", "South Sudan", "Spain", "Sri Lanka", "Sudan", "Suriname", "Sweden",
  "Switzerland", "Syria", "Taiwan", "Tajikistan", "Tanzania", "Thailand", "Togo", "Tonga",
  "Trinidad and Tobago", "Tunisia", "Turkey", "Turkmenistan", "Tuvalu", "Uganda", "Ukraine",
  "United Arab Emirates", "UAE", "United Kingdom", "UK", "Great Britain", "Britain", "England",
  "Scotland", "Wales", "United States", "USA", "U.S.A.", "U.S.", "US", "America", "Uruguay",
  "Uzbekistan", "Vanuatu", "Vatican", "Venezuela", "Vietnam", "Yemen", "Zambia", "Zimbabwe"]

/-- cityEntries lists the alternatives of `cityRegexPattern` (space for `\\s+`, period for `\\.`). -/
def cityEntries : List String := [
  "New York", "Los Angeles", "Chicago", "Houston", "Phoenix", "Philadelphia", "San Antonio",
  "San Diego", "Dallas", "San Jose", "Austin", "Jacksonville", "Fort Worth", "Columbus",
  "Charlotte", "Indianapolis", "San Francisco", "Seattle", "Denver", "Washington", "Boston",
  "London", "Manchester", "Birmingham", "Liverpool", "Glasgow", "Edinburgh", "Paris", "Marseille",
  "Lyon", "Berlin", "Munich", "Hamburg", "Frankfurt", "Tokyo", "Osaka", "Kyoto", "Seoul",
  "Mumbai", "Delhi", "Hyderabad", "Bangkok", "Beijing", "Shanghai", "Hong Kong", "Singapore",
  "Toronto", "Vancouver", "Montreal", "Sydney", "Melbourne", "Brisbane", "Madrid", "Barcelona",
  "Rome", "Milan", "Amsterdam", "Brussels", "Vienna", "Prague", "Moscow", "St. Petersburg",
  "Dubai", "Abu Dhabi", "Riyadh", "Cairo", "Nairobi", "Lagos", "Johannesburg", "Cape Town",
  "Casablanca", "Istanbul", "Ankara", "Tehran", "Baghdad", "Karachi", "Lahore", "Dhaka",
  "Jakarta", "Manila", "Auckland"]

/-- isoCountryCodeEntries lists the alternatives of `isoCountryCodeRegexPattern`. -/
def isoCountryCodeEntries : List String := [
  "AF", "AX", "AL", "DZ", "AS", "AD", "AO", "AI", "AQ", "AG", "AR", "AM", "AW", "AU", "AT", "AZ",
  "BS", "BH", "BD", "BB", "BY", "BE", "BZ", "BJ", "BM", "BT", "BO", "BQ", "BA", "BW", "BV", "BR",
  "IO", "BN", "BG", "BF", "BI", "KH", "CM", "CA", "CV", "KY", "CF", "TD", "CL", "CN", "CX", "CC",
  "CO", "KM", "CG", "CD", "CK", "CR", "CI", "HR", "CU", "CW", "CY", "CZ", "DK", "DJ", "DM", "DO",
  "EC", "EG", "SV", "GQ", "ER", "EE", "ET", "FK", "FO", "FJ", "FI", "FR", "GF", "PF", "TF", "GA",
  "GM", "GE", "DE", "GH", "GI", "GR", "GL", "GD", "GP", "GU", "GT", "GG", "GN", "GW", "GY", "HT",
  "HM", "VA", "HN", "HK", "HU", "IS", "IN", "ID", "IR", "IQ", "IE", "IM", "IL", "IT", "JM", "JP",
  "JE", "JO", "KZ", "KE", "KI", "KP", "KR", "KW", "KG", "LA", "LV", "LB", "LS", "LR", "LY", "LI",
  "LT", "LU", "MO", "MK", "MG", "MW", "MY", "MV", "ML", "MT", "MH", "MQ", "MR", "MU", "YT", "MX",
  "FM", "MD", "MC", "MN", "ME", "MS", "MA", "MZ", "MM", "NA", "NR", "NP", "NL", "NC", "NZ", "NI",
  "NE", "NG", "NU", "NF", "MP", "NO", "OM", "PK", "PW", "PS", "PA", "PG", "PY", "PE", "PH", "PN",
  "PL", "PT", "PR", "QA", "RE", "RO", "RU", "RW", "BL", "SH", "KN", "LC", "MF", "PM", "VC", "WS",
  "SM", "ST", "SA", "SN", "RS", "SC", "SL", "SG", "SX", "SK", "SI", "SB", "SO", "ZA", "GS", "SS",
  "ES", "LK", "SD", "SR", "SJ", "SZ", "SE", "CH", "SY", "TW", "TJ", "TZ", "TH", "TL", "TG", "TK",
  "TO", "TT", "TN", "TR", "TM", "TC", "TV", "UG", "UA", "AE", "GB", "US", "USA", "UM", "UY", "UZ",
  "VU", "VE", "VN", "VG", "VI", "WF", "EH", "YE", "ZM", "ZW"]

/-- countryNameRegexPattern is `(?i)(Afghanistan|…|Zimbabwe)`. -/
def countryNameRegexPattern : RE := .group 1 (gazAlt countryNameEntries)

/-- cityRegexPattern is `(?i)(New\s+York|…|Auckland)`. -/
def cityRegexPattern : RE := .group 1 (gazAlt cityEntries)

/-- isoCountryCodeRegexPattern is `(?i)\b(AF|…|ZW)\b`. -/
def isoCountryCodeRegexPattern : RE :=
  catList [.wordB, .group 1 (gazAlt isoCountryCodeEntries), .wordB]

/-- houseNumberAlt is `(\d+[-\s]?\w*|\d+-\d+-\d+)`, the leading group shared by
the address patterns. -/
def houseNumberAlt (i : Nat) : RE :=
  .group i (.alt
    (catList [plus true dChar, opt true (.cls (fun c => c = '-' || isGoSpace c)),
      .star true wChar])
    (catList [plus true dChar, chr '-', plus true dChar, chr '-', plus true dChar]))

/-- streetWordsSeq is `([A-Za-z\p{L}]+([\s'-][A-Za-z\p{L}]+)*[\s,]+)+` with the
outer group numbered `i` and the inner group `i+1`. -/
def streetWordsSeq (i : Nat) : RE :=
  plus true (.group i (catList [
    plus true letterChar,
    .star true (.group (i+1) (.cat wordSepClass (plus true letterChar))),
    plus true spaceComma]))

/-- specialAddressPattern1 is the street+country pattern of the source. -/
def specialAddressPattern1 : RE :=
  catList [
    houseNumberAlt 1,
    plus true spaceComma,
    streetWordsSeq 2,
    .group 4 (altList (["Road", "Rd", "Street", "St", "Avenue", "Ave", "Boulevard", "Blvd",
      "Drive", "Dr"].map (litStr true))),
    plus true spaceComma,
    .group 5 (gazAlt countryNameEntries)]

/-- specialAddressPattern2 is the street+city+country pattern of the source. -/
def specialAddressPattern2 : RE :=
  catList [
    .group 1 (plus true dChar),
    plus true spaceComma,
    streetWordsSeq 2,
    .group 4 (altList (["Rue", "Via", "Road", "Street", "Avenue"].map (litStr true))),
    plus true spaceComma,
    .group 5 (catList [plus true letterChar,
      .star true (.group 6 (.cat wordSepClass (plus true letterChar)))]),
    plus true spaceComma,
    .group 7 (gazAlt cityEntries),
    plus true spaceComma,
    .group 8 (gazAlt countryNameEntries)]

/-- specialAddressPattern3 is the label-prefixed pattern
`(?i)(:\s+|at\s+|@\s+)(…)` of the source. -/
def specialAddressPattern3 : RE :=
  catList [
    .group 1 (altList [
      .cat (chr ':') (plus true sChar),
      .cat (litStr true "at") (plus true sChar),
      .cat (chr '@') (plus true sChar)]),
    houseNumberAlt 2,
    plus true spaceComma,
    streetWordsSeq 3,
    .group 5 (altList (["Road", "Rd", "Street", "St", "Avenue", "Ave", "Boulevard", "Blvd",
      "Drive", "Dr", "Lane", "Ln", "Place", "Pl", "Rue", "Via", "Viale", "Strasse", "Straße",
      "Calle", "Avenida"].map (litStr true)))]

/-- mainStreetTypeWords lists the street-type alternatives of
`addressRegexPattern`, including the trailing particles `út|de la|del|di|van|von`
(whose spaces are literal spaces in the source). -/
def mainStreetTypeWords : List String :=
  ["Street", "St", "Avenue", "Ave", "Road", "Rd", "Drive", "Dr", "Lane", "Ln", "Place", "Pl",
   "Boulevard", "Blvd", "Way", "Plaza", "Square", "Sq", "Court", "Ct", "Terrace", "Ter",
   "Circle", "Cir", "Alley", "Row", "Highway", "Hwy", "Parkway", "Pkwy", "Path", "Trail", "Tr",
   "Crescent", "Cres", "Rue", "Strasse", "Straße", "Calle", "Via", "Viale", "Avenida", "Carrer",
   "Straat", "Gasse", "Weg", "Camino", "Ulica", "Utca", "Prospekt", "Dori", "Jalan", "Marg",
   "Dao", "Jie", "Lu", "út", "de la", "del", "di", "van", "von"]

/-- commaOrSpaceSep is `(\s*,\s*|\s+)`. -/
def commaOrSpaceSep (i : Nat) : RE :=
  .group i (.alt
    (catList [.star true sChar, chr ',', .star true sChar])
    (plus true sChar))

/-- addressRegexPattern is the main locale-spanning address pattern of the
source. -/
def addressRegexPattern : RE :=
  catList [
    houseNumberAlt 1,
    plus true spaceComma,
    streetWordsSeq 2,
    .group 4 (altList (mainStreetTypeWords.map (litStr true))),
    commaOrSpaceSep 5,
    opt true (.group 6 (catList [plus true letterChar,
      .star true (.group 7 (.cat wordSepClass (plus true letterChar)))])),
    opt true (commaOrSpaceSep 8),
    opt true (.group 9 (.alt
      (catList [.wordB, .group 10 (gazAlt isoCountryCodeEntries), .wordB])
      (.group 11 (gazAlt countryNameEntries))))]

/-- contextAddressPattern is the `(?i)(lives at|…|based at) (…)` pattern
compiled inside `processContextAddresses`. -/
def contextAddressPattern : RE :=
  catList [
    .group 1 (altList (["lives at", "located at", "resides at", "found at", "situated at",
      "at address", "address is", "at location", "based at"].map (litStr true))),
    chr ' ',
    .group 2 (catList [
      plus true dChar,
      .star false (.cls (fun c => !(c = '\n' || c = '.'))),
      .group 3 (altList (["Street", "St", "Avenue", "Ave", "Road", "Rd", "Drive", "Dr", "Lane",
        "Ln", "Place", "Pl", "Boulevard", "Blvd", "Way"].map (litStr true))),
      .star true (.cls (fun c => !(c = '\n' || c = '.')))])]

/-- phoneFormatRegexPattern is
`^(\+?1?\s?)?(\(?)(\d{3})(\)?[\s.-]?)(\d{3})([\s.-]?)(\d{4})`. -/
def phoneFormatRegexPattern : RE :=
  catList [
    .bol,
    opt true (.group 1 (catList [opt true (chr '+'), opt true (chr '1'), opt true sChar])),
    .group 2 (opt true (chr '(')),
    .group 3 (repN 3 dChar),
    .group 4 (.cat (opt true (chr ')')) (opt true sepChar)),
    .group 5 (repN 3 dChar),
    .group 6 (opt true sepChar),
    .group 7 (repN 4 dChar)]

/-! ### Core data model -/

/-- DataType is the source's closed PII category enumeration. -/
inductive DataType where
  | TypeName | TypeEmail | TypePhone | TypeSSN | TypeCreditCard | TypeAddress | TypeGeneric
deriving DecidableEq, Repr

/-- MapTables models the source's `map[string]map[string]string` mapping tables
extensionally: a total function with Go's zero value `""` for missing entries
(`getMapping` returns `""` both for a missing column map and for a missing
original, so the nesting is not observable). -/
def MapTables := String → String → String

/-- emptyTables is the freshly-made mapping state of `NewDeidentifier`. -/
def emptyTables : MapTables := fun _ _ => ""

/-- Deidentifier carries the only per-instance input of the generators: the
keyed digest function.  In the source `deterministicHash` is
HMAC-SHA256(secretKey, input), a fixed 32-byte digest; it is abstracted here as
an arbitrary byte-list-valued function, so every theorem quantified over a
`Deidentifier` holds for every secret key.  The mutable mapping tables guarded
by the source's RWMutex are threaded explicitly as a `MapTables` value. -/
structure Deidentifier where
  deterministicHash : String → List Nat

/-- getMapping retrieves an existing mapping, `""` when absent. -/
def getMapping (st : MapTables) (columnName original : String) : String :=
  st columnName original

/-- setMapping stores a mapping for consistency. -/
def setMapping (st : MapTables) (columnName original replacement : String) : MapTables :=
  fun c v => if c = columnName && v = original then replacement else st c v

/-- ClearMappings clears all stored mappings. -/
def ClearMappings (_st : MapTables) : MapTables := emptyTables

/-- hashSlice is Go's `hash[a:b]`. -/
def hashSlice (hash : List Nat) (a b : Nat) : List Nat := (hash.drop a).take (b - a)

/-- beBytesNat interprets bytes as a big-endian natural number, as
`big.Int.SetBytes` does. -/
def beBytesNat (bs : List Nat) : Nat := bs.foldl (fun acc b => acc * 256 + b % 256) 0

/-- hashToIndex converts hash bytes to an index within range: big-endian value
mod `max`, and `0` when the slice is empty or the range is empty (the source
guards `max <= 0`; `max` is a Go `int`, nonnegative at every call site). -/
def hashToIndex (hashBytes : List Nat) (max : Nat) : Nat :=
  if hashBytes.length = 0 || max = 0 then 0
  else beBytesNat hashBytes % max

/-! ### Generators -/

/-- generateName creates a deterministic fake name.  Go's indexing
`firstNameOptions[firstIdx]` is in bounds because the index is reduced mod the
list length; `getD` with default `""` models it. -/
def Deidentifier.generateName (d : Deidentifier) (original : String) : String :=
  let hash := d.deterministicHash original
  let firstIdx := hashToIndex (hashSlice hash 0 8) firstNameOptions.length
  let lastIdx := hashToIndex (hashSlice hash 8 16) lastNameOptions.length
  firstNameOptions.getD firstIdx "" ++ " " ++ lastNameOptions.getD lastIdx ""

/-- generateEmail creates a deterministic fake email. -/
def Deidentifier.generateEmail (d : Deidentifier) (original : String) : String :=
  let hash := d.deterministicHash original
  let userIdx := hashToIndex (hashSlice hash 0 8) emailUsernameOptions.length
  let domainIdx := hashToIndex (hashSlice hash 8 16) emailDomainOptions.length
  let suffix := hashToIndex (hashSlice hash 16 24) 9999
  emailUsernameOptions.getD userIdx "" ++ decimalStr suffix ++ "@" ++
    emailDomainOptions.getD domainIdx ""

/-- generateGeneric creates a deterministic replacement for generic data. -/
def Deidentifier.generateGeneric (d : Deidentifier) (original : String) : String :=
  let hash := d.deterministicHash original
  "DATA_" ++ hexEncode (hashSlice hash 0 8)

/-- generateAddress creates a deterministic fake address. -/
def Deidentifier.generateAddress (d : Deidentifier) (original : String) : String :=
  let hash := d.deterministicHash original
  let number := 1 + hashToIndex (hashSlice hash 0 8) 9999
  let streetIdx := hashToIndex (hashSlice hash 8 16) streetNameOptions.length
  decimalStr number ++ " " ++ streetNameOptions.getD streetIdx ""

/-- generateSSN creates a deterministic fake SSN with valid format, avoiding
the invalid area values (the source remaps 666 to 667 and draws the area from
100–664 so 900–999 cannot occur). -/
def Deidentifier.generateSSN (d : Deidentifier) (original : String) : String :=
  let hash := d.deterministicHash original
  let area0 := 100 + hashToIndex (hashSlice hash 0 8) 565
  let area := if area0 = 666 then 667 else area0
  let group := 1 + hashToIndex (hashSlice hash 8 16) 99
  let serial := 1 + hashToIndex (hashSlice hash 16 24) 9999
  padNum 3 area ++ "-" ++ padNum 2 group ++ "-" ++ padNum 4 serial

/-- charAtoi models `strconv.Atoi(string(char))` with the source's ignored
error: a digit character's value and 0 otherwise. -/
def charAtoi (c : Char) : Nat := if c.isDigit then c.toNat - 48 else 0

/-- luhnScan is the source's right-to-left loop: digits at even positions from
the right (the `alternate` flag starts true) are doubled, with digit-sum
correction above 9. -/
def luhnScan (cs : List Char) (alternate : Bool) : Nat :=
  match cs with
  | [] => 0
  | c :: rest =>
    let digit0 := charAtoi c
    let digit := if alternate then
        (let dd := digit0 * 2; if dd > 9 then dd / 10 + dd % 10 else dd)
      else digit0
    digit + luhnScan rest (!alternate)

/-- calculateLuhnCheckDigit calculates the Luhn checksum digit of a digit
string (the check-digit position is excluded by the caller). -/
def calculateLuhnCheckDigit (cardNumber : String) : Nat :=
  (10 - luhnScan cardNumber.data.reverse true % 10) % 10

/-- formatGroups4 is the source's formatting loop: a space before every
character whose index is a positive multiple of 4. -/
def formatGroups4 (i : Nat) (cs : List Char) : List Char :=
  match cs with
  | [] => []
  | c :: rest =>
    (if i > 0 && i % 4 = 0 then [' ', c] else [c]) ++ formatGroups4 (i + 1) rest

/-- generateCreditCard creates a deterministic fake credit card with the test
prefix 4000, hash-drawn digits and a valid Luhn checksum, space-grouped in
fours. -/
def Deidentifier.generateCreditCard (d : Deidentifier) (original : String) : String :=
  let hash := d.deterministicHash original
  let cardNumber := (List.range 11).foldl
    (fun acc i => acc ++ decimalStr (hashToIndex (hashSlice hash (i*2) (i*2+2)) 10)) "4000"
  let cardNumber := cardNumber ++ decimalStr (calculateLuhnCheckDigit cardNumber)
  String.mk (formatGroups4 0 cardNumber.data)

/-- phoneSubmatches runs `FindStringSubmatch` for the skeleton regex, giving
the full match and the seven capture groups (`""` for an unmatched group). -/
def phoneSubmatches (original : String) : Option (List String) :=
  reFindStringSubmatch phoneFormatRegexPattern 7 original

/-- generatePhone creates a deterministic fake phone number preserving the
original's captured skeleton, or falls back to the generic replacement when
the skeleton regex does not match. -/
def Deidentifier.generatePhone (d : Deidentifier) (original : String) : String :=
  match phoneSubmatches original with
  | none => d.generateGeneric original
  | some ms =>
    let pfx := ms.getD 1 ""
    let openParen := ms.getD 2 ""
    let areaCode := ms.getD 3 ""
    let afterAreaCode := ms.getD 4 ""
    let separator := ms.getD 6 ""
    let hash := d.deterministicHash original
    let exchange := 200 + hashToIndex (hashSlice hash 0 8) 799
    let number := 1000 + hashToIndex (hashSlice hash 8 16) 8999
    pfx ++ openParen ++ areaCode ++ afterAreaCode ++ padNum 3 exchange ++
      separator ++ padNum 4 number

/-- generateByType is the `switch dataType` dispatch in the body of
`deidentifyValue`. -/
def Deidentifier.generateByType (d : Deidentifier) (dataType : DataType) (value : String) :
    String :=
  match dataType with
  | .TypeName => d.generateName value
  | .TypeEmail => d.generateEmail value
  | .TypePhone => d.generatePhone value
  | .TypeSSN => d.generateSSN value
  | .TypeCreditCard => d.generateCreditCard value
  | .TypeAddress => d.generateAddress value
  | .TypeGeneric => d.generateGeneric value

/-- deidentifyValue handles individual value deidentification: empty values
pass through, an existing mapping is returned as-is, otherwise the generator
runs and the result is stored.  The Go `error` result is `nil` on every path;
it is kept as the `Option GoErr` component. -/
def Deidentifier.deidentifyValue (d : Deidentifier) (st : MapTables) (value : String)
    (dataType : DataType) (columnName : String) : (String × Option GoErr) × MapTables :=
  if value = "" then (("", none), st)
  else
    let mapped := getMapping st columnName value
    if mapped ≠ "" then ((mapped, none), st)
    else
      let result := d.generateByType dataType value
      ((result, none), setMapping st columnName value result)

/-! ### Type inference -/

/-- patternSet holds the compiled matchers for type inference, as predicates on
strings (Go's `MatchString`). -/
structure patternSet where
  email : String → Bool
  phone : String → Bool
  ssn : String → Bool
  creditCard : String → Bool
  name : String → Bool
  address : String → Bool
  addressWord : String → Bool

/-- compilePatterns compiles all inference patterns once. -/
def compilePatterns : patternSet where
  email := reMatchString emailRegexPattern
  phone := reMatchString phoneRegexPattern
  ssn := reMatchString ssnRegexPattern
  creditCard := reMatchString creditCardRegexPattern
  name := reMatchString nameRegexPattern
  address := reMatchString addressRegexPattern
  addressWord := reMatchString addressWordRegexPattern

/-- Scores models the `map[DataType]int` score table as a total function; the
keys created by `initializeTypeScores` are fixed, and `allScoredTypes` records
their insertion order.  Go iterates maps in unspecified order; the claims
proved below are stated so that they hold for every iteration order. -/
def Scores := DataType → Nat

/-- allScoredTypes is the key set of `initializeTypeScores`. -/
def allScoredTypes : List DataType :=
  [.TypeEmail, .TypePhone, .TypeSSN, .TypeCreditCard, .TypeAddress, .TypeName, .TypeGeneric]

/-- initializeTypeScores creates a map with zero scores for all types. -/
def initializeTypeScores : Scores := fun _ => 0

/-- bumpScore adds `n` to one category's score. -/
def bumpScore (scores : Scores) (t : DataType) (n : Nat) : Scores :=
  fun t' => if t' = t then scores t' + n else scores t'

/-- scoreValue scores a single value against all patterns: 10 points per hit,
except names, which get 5 because free-text name matching is unreliable. -/
def scoreValue (patterns : patternSet) (value : String) (typeScores : Scores) : Scores :=
  let typeScores := if patterns.email value then bumpScore typeScores .TypeEmail 10
    else typeScores
  let typeScores := if patterns.phone value then bumpScore typeScores .TypePhone 10
    else typeScores
  let typeScores := if patterns.ssn value then bumpScore typeScores .TypeSSN 10
    else typeScores
  let typeScores := if patterns.creditCard value then bumpScore typeScores .TypeCreditCard 10
    else typeScores
  let typeScores := if patterns.address value || patterns.addressWord value then
      bumpScore typeScores .TypeAddress 10
    else typeScores
  let typeScores := if patterns.name value && !patterns.addressWord value then
      bumpScore typeScores .TypeName 5
    else typeScores
  typeScores

/-- findHighestScoringType finds a type with the highest score (with strict
`>` the initial `(TypeGeneric, 0)` survives ties at zero, and which tied
maximum wins in Go depends on map iteration order). -/
def findHighestScoringType (typeScores : Scores) : DataType × Nat :=
  allScoredTypes.foldl
    (fun acc t => if typeScores t > acc.2 then (t, typeScores t) else acc)
    (.TypeGeneric, 0)

/-- getConfidenceThreshold returns the confidence threshold for a given type:
30% of the per-value maximum for names, 50% for the other types. -/
def getConfidenceThreshold (dataType : DataType) (validValues : Nat) : Nat :=
  if dataType = .TypeName then validValues * 3 else validValues * 5

/-- isValidValue checks that the cell exists, is non-empty and does not trim to
the empty string (Go `strings.TrimSpace` against Lean's `String.trim`). -/
def isValidValue (row : List String) (col : Nat) : Bool :=
  match row[col]? with
  | some v => v ≠ "" && v.trim ≠ ""
  | none => false

/-- scoreColumnValues samples at most the first 10 rows for performance,
scoring each valid (non-empty) cell and counting them. -/
def scoreColumnValues (data : List (List String)) (col : Nat) (patterns : patternSet) :
    Scores × Nat :=
  (data.take 10).foldl
    (fun acc row =>
      if isValidValue row col then
        (scoreValue patterns ((row.getD col "").trim) acc.1, acc.2 + 1)
      else acc)
    (initializeTypeScores, 0)

/-- selectBestType accepts the highest-scoring type only when its score clears
the confidence threshold, and classifies a column with no valid values as
Generic. -/
def selectBestType (typeScores : Scores) (validValues : Nat) : DataType :=
  let best := findHighestScoringType typeScores
  if validValues = 0 then .TypeGeneric
  else if best.2 ≥ getConfidenceThreshold best.1 validValues then best.1
  else .TypeGeneric

/-- inferSingleColumnType analyzes a single column to determine its type. -/
def inferSingleColumnType (data : List (List String)) (col : Nat) (patterns : patternSet) :
    DataType :=
  let scored := scoreColumnValues data col patterns
  selectBestType scored.1 scored.2

/-- inferColumnTypes analyzes the data to determine the most likely data type
for each column (the width of the first row). -/
def inferColumnTypes (data : List (List String)) : List DataType :=
  match data with
  | [] => []
  | r :: _ =>
    (List.range r.length).map (fun col => inferSingleColumnType data col compilePatterns)

/-! ### Table transform -/

/-- Column is a single table column.  The Go `Values []interface{}` cells are
modelled as optional strings: `none` is Go `nil`, and `fmt.Sprintf("%v", v)`
on the remaining (string) values is the identity. -/
structure Column where
  name : String
  dataType : DataType
  values : List (Option String)

/-- Table is a collection of columns. -/
structure Table where
  Columns : List Column

/-- processColumnValues is the inner loop of the `Table` method over one
column's values: `nil` passes through, other values go through
`deidentifyValue`, and a (defensive, never-taken) error return wraps the
column name and row index. -/
def Deidentifier.processColumnValues (d : Deidentifier) (colName : String) (ty : DataType) :
    List (Option String) → Nat → MapTables → Except GoErr (List (Option String)) × MapTables
  | [], _, st => (.ok [], st)
  | v :: rest, j, st =>
    match v with
    | none =>
      match d.processColumnValues colName ty rest (j + 1) st with
      | (.ok out, st') => (.ok (none :: out), st')
      | (.error e, st') => (.error e, st')
    | some s =>
      let ((dv, err), st') := d.deidentifyValue st s ty colName
      match err with
      | some e =>
        (.error ("error deidentifying column " ++ colName ++ ", row " ++ decimalStr j ++
          ": " ++ e), st')
      | none =>
        match d.processColumnValues colName ty rest (j + 1) st' with
        | (.ok out, st'') => (.ok (some dv :: out), st'')
        | (.error e, st'') => (.error e, st'')

/-- processColumns iterates the declared columns in order, threading the
mapping state. -/
def Deidentifier.processColumns (d : Deidentifier) :
    List Column → MapTables → Except GoErr (List Column) × MapTables
  | [], st => (.ok [], st)
  | col :: rest, st =>
    match d.processColumnValues col.name col.dataType col.values 0 st with
    | (.error e, st') => (.error e, st')
    | (.ok vals, st') =>
      match d.processColumns rest st' with
      | (.ok cols, st'') =>
        (.ok ({ name := col.name, dataType := col.dataType, values := vals } :: cols), st'')
      | (.error e, st'') => (.error e, st'')

/-- Table processes an entire table. -/
def Deidentifier.Table (d : Deidentifier) (table : Table) (st : MapTables) :
    Except GoErr Table × MapTables :=
  match d.processColumns table.Columns st with
  | (.ok cols, st') => (.ok ⟨cols⟩, st')
  | (.error e, st') => (.error e, st')

/-! ### Slices transform -/

/-- GoVal models the `...interface{}` optional arguments of `Slices`: a
`[]DataType`, a `[]string`, or a value of any other dynamic type. -/
inductive GoVal where
  | types : List DataType → GoVal
  | names : List String → GoVal
  | other : GoVal

/-- slicesConfig holds the configuration for slice processing. -/
structure slicesConfig where
  columnTypes : List DataType
  columnNames : List String
  numCols : Nat

/-- parseOptionalParameters extracts columnTypes and columnNames from the
optional parameters, rejecting wrongly-typed ones. -/
def parseOptionalParameters (optional : List GoVal) (config : slicesConfig) :
    Except GoErr slicesConfig :=
  match optional with
  | [] => .ok config
  | v0 :: rest =>
    match v0 with
    | .types ts =>
      match rest with
      | [] => .ok { config with columnTypes := ts }
      | v1 :: _ =>
        match v1 with
        | .names ns => .ok { config with columnTypes := ts, columnNames := ns }
        | _ => .error "second optional parameter must be []string"
    | _ => .error "first optional parameter must be []DataType"

/-- setDefaultColumnNames generates `column_N` names when none were provided
(Go tests `len(config.columnNames) == 0`, so a supplied empty array is
replaced too). -/
def setDefaultColumnNames (config : slicesConfig) : slicesConfig :=
  if config.columnNames.length = 0 then
    { config with
      columnNames := (List.range config.numCols).map (fun i => "column_" ++ decimalStr i) }
  else config

/-- inferOrValidateColumnTypes infers column types when none were provided
(again by a `len == 0` test). -/
def inferOrValidateColumnTypes (data : List (List String)) (config : slicesConfig) :
    slicesConfig :=
  if config.columnTypes.length = 0 then { config with columnTypes := inferColumnTypes data }
  else config

/-- schemaMismatchMsg is the message of `validateSlicesConfig`. -/
def schemaMismatchMsg (cols tl nl : Nat) : GoErr :=
  "mismatch between data columns (" ++ decimalStr cols ++ ") and provided column types (" ++
    decimalStr tl ++ ") or names (" ++ decimalStr nl ++ ")"

/-- validateSlicesConfig validates that the configuration matches the data
width. -/
def validateSlicesConfig (config : slicesConfig) : Except GoErr Unit :=
  if config.columnTypes.length ≠ config.numCols ∨ config.columnNames.length ≠ config.numCols
  then .error (schemaMismatchMsg config.numCols config.columnTypes.length
    config.columnNames.length)
  else .ok ()

/-- parseSlicesParameters parses and validates the optional parameters of
`Slices`; `numCols` is the width of the first row. -/
def parseSlicesParameters (data : List (List String)) (optional : List GoVal) :
    Except GoErr slicesConfig :=
  let config : slicesConfig :=
    { columnTypes := [], columnNames := [], numCols := (data.headD []).length }
  match parseOptionalParameters optional config with
  | .error e => .error e
  | .ok config =>
    let config := setDefaultColumnNames config
    let config := inferOrValidateColumnTypes data config
    match validateSlicesConfig config with
    | .error e => .error e
    | .ok _ => .ok config

/-- SliceRes is the outcome of slice processing: a value, a returned Go error,
or a runtime panic (Go index out of range). -/
inductive SliceRes (α : Type) where
  | ok : α → SliceRes α
  | err : GoErr → SliceRes α
  | panicked : SliceRes α
deriving Repr

/-- processCells is the cell loop of `processSliceRow`: empty cells pass
through before any array access, and a non-empty cell indexes
`config.columnTypes[j]` and `config.columnNames[j]`, panicking out of range. -/
def Deidentifier.processCells (d : Deidentifier) (config : slicesConfig) (rowIndex : Nat) :
    Nat → List String → MapTables → SliceRes (List String) × MapTables
  | _, [], st => (.ok [], st)
  | j, value :: rest, st =>
    if value = "" then
      match d.processCells config rowIndex (j + 1) rest st with
      | (.ok out, st') => (.ok ("" :: out), st')
      | other => other
    else
      match config.columnTypes[j]?, config.columnNames[j]? with
      | some ty, some nm =>
        let ((dv, err), st') := d.deidentifyValue st value ty nm
        match err with
        | some e =>
          (.err ("error deidentifying row " ++ decimalStr rowIndex ++ ", column " ++
            decimalStr j ++ " (" ++ nm ++ "): " ++ e), st')
        | none =>
          match d.processCells config rowIndex (j + 1) rest st' with
          | (.ok out, st'') => (.ok (dv :: out), st'')
          | other => other
      | _, _ => (.panicked, st)

/-- processSliceRow processes a single row of slice data. -/
def Deidentifier.processSliceRow (d : Deidentifier) (row : List String)
    (config : slicesConfig) (rowIndex : Nat) (st : MapTables) :
    SliceRes (List String) × MapTables :=
  d.processCells config rowIndex 0 row st

/-- processSliceData processes the rows in order. -/
def Deidentifier.processSliceData (d : Deidentifier) :
    List (List String) → slicesConfig → Nat → MapTables →
      SliceRes (List (List String)) × MapTables
  | [], _, _, st => (.ok [], st)
  | row :: rest, config, i, st =>
    match d.processSliceRow row config i st with
    | (.ok out, st') =>
      match d.processSliceData rest config (i + 1) st' with
      | (.ok outs, st'') => (.ok (out :: outs), st'')
      | (.err e, st'') => (.err e, st'')
      | (.panicked, st'') => (.panicked, st'')
    | (.err e, st') => (.err e, st')
    | (.panicked, st') => (.panicked, st')

/-- Slices processes a slice of rows with optional explicit column types and
names. -/
def Deidentifier.Slices (d : Deidentifier) (data : List (List String))
    (optional : List GoVal) (st : MapTables) : SliceRes (List (List String)) × MapTables :=
  match data with
  | [] => (.ok [], st)
  | _ =>
    match parseSlicesParameters data optional with
    | .error e => (.err e, st)
    | .ok config => d.processSliceData data config 0 st

/-! ### Free-text detection (the `Text` method and its passes) -/

/-- isAddressContext checks whether a name candidate is actually part of an
address. -/
def isAddressContext (name : String) : Bool :=
  reMatchString addressWordRegexPattern name ||
  reMatchString internationalAddressRegexPattern name ||
  reMatchString countryNameRegexPattern name ||
  reMatchString cityRegexPattern name

/-- processEmails handles email deidentification. -/
def Deidentifier.processEmails (d : Deidentifier) (text : String) (st : MapTables) :
    String × MapTables :=
  reReplaceAllFunc emailRegexPattern
    (fun email st =>
      let ((deidentified, err), st') := d.deidentifyValue st email .TypeEmail "email"
      match err with
      | some _ => ("[EMAIL REDACTION ERROR]", st')
      | none => (deidentified, st'))
    text st

/-- processPhones handles phone number deidentification. -/
def Deidentifier.processPhones (d : Deidentifier) (text : String) (st : MapTables) :
    String × MapTables :=
  reReplaceAllFunc phoneRegexPattern
    (fun phone st =>
      let ((deidentified, err), st') := d.deidentifyValue st phone .TypePhone "phone"
      match err with
      | some _ => ("[PHONE REDACTION ERROR]", st')
      | none => (deidentified, st'))
    text st

/-- processSSNMatch processes a single SSN candidate, validating its format or
context before replacing it. -/
def Deidentifier.processSSNMatch (d : Deidentifier) (ssn originalText : String)
    (st : MapTables) : String × MapTables :=
  let rawDigits := String.mk (ssn.data.filter Char.isDigit)
  let isFormatted := reMatchString ssnHyphenRegexPattern ssn ||
    reMatchString ssnSpaceRegexPattern ssn
  let hasSSNContext := reMatchString ssnContextRegexPattern originalText
  if !isFormatted && !hasSSNContext && rawDigits.length ≠ 9 then (ssn, st)
  else
    let ((deidentified, err), st') := d.deidentifyValue st ssn .TypeSSN "ssn"
    match err with
    | some _ => ("[SSN REDACTION ERROR]", st')
    | none => (deidentified, st')

/-- processSSNs handles SSN deidentification; the context check runs against
the original text of the overall call. -/
def Deidentifier.processSSNs (d : Deidentifier) (text originalText : String)
    (st : MapTables) : String × MapTables :=
  reReplaceAllFunc ssnRegexPattern
    (fun ssn st => d.processSSNMatch ssn originalText st)
    text st

/-- processCreditCards handles credit card deidentification. -/
def Deidentifier.processCreditCards (d : Deidentifier) (text : String) (st : MapTables) :
    String × MapTables :=
  reReplaceAllFunc creditCardRegexPattern
    (fun cc st =>
      let ((deidentified, err), st') := d.deidentifyValue st cc .TypeCreditCard "credit_card"
      match err with
      | some _ => ("[CC REDACTION ERROR]", st')
      | none => (deidentified, st'))
    text st

/-- processContextAddresses handles addresses with contextual clues, keeping
the contextual phrase and replacing the address part. -/
def Deidentifier.processContextAddresses (d : Deidentifier) (text : String)
    (st : MapTables) : String × MapTables :=
  reReplaceAllFunc contextAddressPattern
    (fun m st =>
      match reFindStringSubmatch contextAddressPattern 3 m with
      | none => (m, st)
      | some parts =>
        let pfx := parts.getD 1 ""
        let address := (parts.getD 2 "").trim
        let ((deidentified, err), st') := d.deidentifyValue st address .TypeAddress "address"
        match err with
        | some _ => (m, st')
        | none => (pfx ++ " " ++ deidentified, st'))
    text st

/-- processSpecialAddressPattern handles a single special address pattern. -/
def Deidentifier.processSpecialAddressPattern (d : Deidentifier) (text : String)
    (pattern : RE) (st : MapTables) : String × MapTables :=
  reReplaceAllFunc pattern
    (fun addr st =>
      let ((deidentified, err), st') := d.deidentifyValue st addr .TypeAddress "address"
      match err with
      | some _ => ("[ADDRESS REDACTION ERROR]", st')
      | none => (deidentified, st'))
    text st

/-- splitFirstSpace models `strings.SplitN(addr, " ", 2)`. -/
def splitFirstSpace (s : String) : List String :=
  match s.data.findIdx? (fun c => c = ' ') with
  | none => [s]
  | some i => [String.mk (s.data.take i), String.mk (s.data.drop (i + 1))]

/-- processSpecialAddressPattern3 handles the label-prefixed special pattern,
preserving the first word of the match. -/
def Deidentifier.processSpecialAddressPattern3 (d : Deidentifier) (text : String)
    (st : MapTables) : String × MapTables :=
  reReplaceAllFunc specialAddressPattern3
    (fun addr st =>
      match splitFirstSpace addr with
      | [pfx, rest] =>
        let address := rest.trim
        let ((deidentified, err), st') := d.deidentifyValue st address .TypeAddress "address"
        match err with
        | some _ => (addr, st')
        | none => (pfx ++ " " ++ deidentified, st')
      | _ => (addr, st))
    text st

/-- processSpecialAddresses handles the three special address patterns. -/
def Deidentifier.processSpecialAddresses (d : Deidentifier) (text : String)
    (st : MapTables) : String × MapTables :=
  let (text, st) := d.processSpecialAddressPattern text specialAddressPattern1 st
  let (text, st) := d.processSpecialAddressPattern text specialAddressPattern2 st
  d.processSpecialAddressPattern3 text st

/-- processNames handles name deidentification with the address-context
exclusion. -/
def Deidentifier.processNames (d : Deidentifier) (text : String) (st : MapTables) :
    String × MapTables :=
  reReplaceAllFunc nameRegexPattern
    (fun nm st =>
      if isAddressContext nm then (nm, st)
      else
        let ((deidentified, err), st') := d.deidentifyValue st nm .TypeName "name"
        match err with
        | some _ => ("[NAME REDACTION ERROR]", st')
        | none => (deidentified, st'))
    text st

/-- processStandardAddresses handles the standard address pattern. -/
def Deidentifier.processStandardAddresses (d : Deidentifier) (text : String)
    (st : MapTables) : String × MapTables :=
  reReplaceAllFunc addressRegexPattern
    (fun addr st =>
      let ((deidentified, err), st') := d.deidentifyValue st addr .TypeAddress "address"
      match err with
      | some _ => ("[ADDRESS REDACTION ERROR]", st')
      | none => (deidentified, st'))
    text st

/-- Text identifies and deidentifies PII from a text string, running the eight
passes in the source's order; both return paths carry a `nil` error. -/
def Deidentifier.Text (d : Deidentifier) (text : String) (st : MapTables) :
    (String × Option GoErr) × MapTables :=
  if text = "" then (("", none), st)
  else
    let (result, st) := d.processEmails text st
    let (result, st) := d.processPhones result st
    let (result, st) := d.processSSNs result text st
    let (result, st) := d.processCreditCards result st
    let (result, st) := d.processContextAddresses result st
    let (result, st) := d.processSpecialAddresses result st
    let (result, st) := d.processNames result st
    let (result, st) := d.processStandardAddresses result st
    ((result, none), st)

/-! ### Basic lemmas about strings and the mapping store -/

theorem string_ne_empty_iff (s : String) : s ≠ "" ↔ s.data ≠ [] := by
  constructor
  · intro h hdata
    apply h
    cases s
    simp_all
  · exact string_ne_empty_of_data_ne_nil s

theorem decimalStr_ne_empty (n : Nat) : decimalStr n ≠ "" := by
  rw [string_ne_empty_iff]
  simp [decimalStr, natDigits_ne_nil]

theorem padNum_ne_empty (w n : Nat) : padNum w n ≠ "" := by
  rw [string_ne_empty_iff]
  simp [padNum, string_data_append, decimalStr, natDigits_ne_nil]

theorem getMapping_setMapping (st : MapTables) (c v r c' v' : String) :
    getMapping (setMapping st c v r) c' v' =
      if c' = c ∧ v' = v then r else getMapping st c' v' := by
  simp only [getMapping, setMapping]
  split <;> split <;> simp_all

/-! ### Generators never return the empty string -/

theorem string_append_ne_empty_right (a b : String) (h : b ≠ "") : a ++ b ≠ "" := by
  rw [string_ne_empty_iff] at h ⊢
  rw [string_data_append]
  simp
  intro _
  exact h

theorem string_append_ne_empty_left (a b : String) (h : a ≠ "") : a ++ b ≠ "" := by
  rw [string_ne_empty_iff] at h ⊢
  rw [string_data_append]
  simp
  intro ha
  exact absurd ha h

theorem formatGroups4_ne_nil (i : Nat) (cs : List Char) (h : cs ≠ []) :
    formatGroups4 i cs ≠ [] := by
  cases cs with
  | nil => simp_all
  | cons c rest =>
    simp only [formatGroups4]
    split <;> simp

theorem generateName_ne_empty (d : Deidentifier) (v : String) : d.generateName v ≠ "" := by
  unfold Deidentifier.generateName
  exact string_append_ne_empty_left _ _ (string_append_ne_empty_right _ _ (by decide))

theorem generateEmail_ne_empty (d : Deidentifier) (v : String) : d.generateEmail v ≠ "" := by
  unfold Deidentifier.generateEmail
  exact string_append_ne_empty_left _ _ (string_append_ne_empty_right _ _ (by decide))

theorem generateGeneric_ne_empty (d : Deidentifier) (v : String) : d.generateGeneric v ≠ "" := by
  unfold Deidentifier.generateGeneric
  exact string_append_ne_empty_left _ _ (by decide)

theorem generateAddress_ne_empty (d : Deidentifier) (v : String) : d.generateAddress v ≠ "" := by
  unfold Deidentifier.generateAddress
  exact string_append_ne_empty_left _ _ (string_append_ne_empty_right _ _ (by decide))

theorem generateSSN_ne_empty (d : Deidentifier) (v : String) : d.generateSSN v ≠ "" := by
  unfold Deidentifier.generateSSN
  exact string_append_ne_empty_right _ _ (padNum_ne_empty _ _)

theorem generateCreditCard_ne_empty (d : Deidentifier) (v : String) :
    d.generateCreditCard v ≠ "" := by
  unfold Deidentifier.generateCreditCard
  rw [string_ne_empty_iff]
  apply formatGroups4_ne_nil
  rw [← string_ne_empty_iff]
  exact string_append_ne_empty_right _ _ (decimalStr_ne_empty _)

theorem generatePhone_ne_empty (d : Deidentifier) (v : String) : d.generatePhone v ≠ "" := by
  unfold Deidentifier.generatePhone
  cases h : phoneSubmatches v with
  | none => simpa using generateGeneric_ne_empty d v
  | some ms =>
    simp only
    exact string_append_ne_empty_right _ _ (padNum_ne_empty _ _)

theorem generateByType_ne_empty (d : Deidentifier) (ty : DataType) (v : String) :
    d.generateByType ty v ≠ "" := by
  cases ty with
  | TypeName => exact generateName_ne_empty d v
  | TypeEmail => exact generateEmail_ne_empty d v
  | TypePhone => exact generatePhone_ne_empty d v
  | TypeSSN => exact generateSSN_ne_empty d v
  | TypeCreditCard => exact generateCreditCard_ne_empty d v
  | TypeAddress => exact generateAddress_ne_empty d v
  | TypeGeneric => exact generateGeneric_ne_empty d v

/-! ### Behaviour of `deidentifyValue` -/

theorem deidentifyValue_hit (d : Deidentifier) (st : MapTables) (v : String) (ty : DataType)
    (c : String) (hv : v ≠ "") (h : getMapping st c v ≠ "") :
    d.deidentifyValue st v ty c = ((getMapping st c v, none), st) := by
  simp [Deidentifier.deidentifyValue, hv, h]

theorem deidentifyValue_miss (d : Deidentifier) (st : MapTables) (v : String) (ty : DataType)
    (c : String) (hv : v ≠ "") (h : getMapping st c v = "") :
    d.deidentifyValue st v ty c =
      ((d.generateByType ty v, none),
        setMapping st c v (d.generateByType ty v)) := by
  simp [Deidentifier.deidentifyValue, hv, h]

theorem deidentifyValue_err_none (d : Deidentifier) (st : MapTables) (v : String)
    (ty : DataType) (c : String) : (d.deidentifyValue st v ty c).1.2 = none := by
  unfold Deidentifier.deidentifyValue
  split
  · rfl
  · simp only
    split <;> rfl

theorem deidentifyValue_result_ne_empty (d : Deidentifier) (st : MapTables) (v : String)
    (ty : DataType) (c : String) (hv : v ≠ "") :
    (d.deidentifyValue st v ty c).1.1 ≠ "" := by
  by_cases h : getMapping st c v = ""
  · rw [deidentifyValue_miss d st v ty c hv h]
    exact generateByType_ne_empty d ty v
  · rw [deidentifyValue_hit d st v ty c hv h]
    exact h

theorem deidentifyValue_stores (d : Deidentifier) (st : MapTables) (v : String)
    (ty : DataType) (c : String) (hv : v ≠ "") :
    getMapping (d.deidentifyValue st v ty c).2 c v = (d.deidentifyValue st v ty c).1.1 := by
  by_cases h : getMapping st c v = ""
  · rw [deidentifyValue_miss d st v ty c hv h]
    simp [getMapping_setMapping]
  · rw [deidentifyValue_hit d st v ty c hv h]

theorem deidentifyValue_preserves (d : Deidentifier) (st : MapTables) (v' : String)
    (ty' : DataType) (c' : String) (c v x : String) (hx : getMapping st c v = x)
    (hne : x ≠ "") : getMapping (d.deidentifyValue st v' ty' c').2 c v = x := by
  unfold Deidentifier.deidentifyValue
  split
  · exact hx
  · simp only
    split
    · exact hx
    · rw [getMapping_setMapping]
      split
      · next heq =>
        obtain ⟨rfl, rfl⟩ := heq
        simp_all
      · exact hx

/-- stepRel is one `deidentifyValue` call on the shared mapping state. -/
def Deidentifier.stepRel (d : Deidentifier) (st st' : MapTables) : Prop :=
  ∃ v ty c, st' = (d.deidentifyValue st v ty c).2

/-- StepsTo is any (possibly empty) sequence of `deidentifyValue` calls: the
evolution of one instance's mapping tables with no intervening
`ClearMappings`. -/
def Deidentifier.StepsTo (d : Deidentifier) : MapTables → MapTables → Prop :=
  Relation.ReflTransGen d.stepRel

theorem stepsTo_preserves (d : Deidentifier) (st st' : MapTables) (c v x : String)
    (h : d.StepsTo st st') (hx : getMapping st c v = x) (hne : x ≠ "") :
    getMapping st' c v = x := by
  induction h with
  | refl => exact hx
  | tail _ hstep ih =>
    obtain ⟨v', ty', c', rfl⟩ := hstep
    exact deidentifyValue_preserves d _ v' ty' c' c v x ih hne

/-- Claim C1: for every field context `c`, non-empty string `v`, and category
`ty`, two calls to `deidentifyValue(v, ty, c)` on the same Deidentifier
instance — with any sequence of further `deidentifyValue` calls in between but
no intervening `ClearMappings` — return the same replacement string. -/
theorem claim_C1 (d : Deidentifier) (st : MapTables) (v : String) (ty : DataType)
    (c : String) (hv : v ≠ "") (st' : MapTables)
    (hreach : d.StepsTo (d.deidentifyValue st v ty c).2 st') :
    (d.deidentifyValue st' v ty c).1.1 = (d.deidentifyValue st v ty c).1.1 := by
  have hstore := deidentifyValue_stores d st v ty c hv
  have hne := deidentifyValue_result_ne_empty d st v ty c hv
  have hmap : getMapping st' c v = (d.deidentifyValue st v ty c).1.1 :=
    stepsTo_preserves d _ st' c v _ hreach hstore hne
  rw [deidentifyValue_hit d st' v ty c hv (by rw [hmap]; exact hne)]
  exact hmap

/-- witness deidentifier with a concrete digest function. -/
def d0 : Deidentifier := ⟨fun _ => List.range 32⟩

/-- Witness for C1 at a concrete input: a second identical call directly after
the first (the reflexive reachability step) returns the same string. -/
theorem claim_C1_witness :
    (d0.deidentifyValue (d0.deidentifyValue emptyTables "alice" .TypeEmail "email").2
        "alice" .TypeEmail "email").1.1
      = (d0.deidentifyValue emptyTables "alice" .TypeEmail "email").1.1 :=
  claim_C1 d0 emptyTables "alice" .TypeEmail "email" (by decide) _
    Relation.ReflTransGen.refl

theorem deidentifyValue_result_of_ok (d : Deidentifier) (st : MapTables) (v : String)
    (ty : DataType) (c : String) (hv : v ≠ "")
    (h : getMapping st c v = "" ∨ getMapping st c v = d.generateByType ty v) :
    (d.deidentifyValue st v ty c).1.1 = d.generateByType ty v := by
  rcases h with h | h
  · rw [deidentifyValue_miss d st v ty c hv h]
  · by_cases h0 : getMapping st c v = ""
    · rw [deidentifyValue_miss d st v ty c hv h0]
    · rw [deidentifyValue_hit d st v ty c hv h0]
      exact h

/-- Claim C2: under a fixed secret key, deidentifying the same non-empty value
with the same category under two field contexts yields the identical
replacement, provided neither context's slot already holds a value produced
under a different category (each slot is empty or holds this category's
generated value): the field context selects only the cache slot, not the
generated value. -/
theorem claim_C2 (d : Deidentifier) (st : MapTables) (v : String) (ty : DataType)
    (c₁ c₂ : String) (hv : v ≠ "")
    (h1 : getMapping st c₁ v = "" ∨ getMapping st c₁ v = d.generateByType ty v)
    (h2 : getMapping st c₂ v = "" ∨ getMapping st c₂ v = d.generateByType ty v) :
    (d.deidentifyValue (d.deidentifyValue st v ty c₁).2 v ty c₂).1.1
      = (d.deidentifyValue st v ty c₁).1.1 := by
  have r1 := deidentifyValue_result_of_ok d st v ty c₁ hv h1
  have h2' : getMapping (d.deidentifyValue st v ty c₁).2 c₂ v = "" ∨
      getMapping (d.deidentifyValue st v ty c₁).2 c₂ v = d.generateByType ty v := by
    by_cases h0 : getMapping st c₁ v = ""
    · rw [deidentifyValue_miss d st v ty c₁ hv h0, getMapping_setMapping]
      split
      · exact Or.inr rfl
      · exact h2
    · rw [deidentifyValue_hit d st v ty c₁ hv h0]
      exact h2
  rw [deidentifyValue_result_of_ok d _ v ty c₂ hv h2', r1]

/-- Witness for C2 at a concrete input: contexts `ssn_a` and `ssn_b` with a
fresh mapping state produce the same SSN replacement. -/
theorem claim_C2_witness :
    (d0.deidentifyValue (d0.deidentifyValue emptyTables "bob" .TypeSSN "ssn_a").2
        "bob" .TypeSSN "ssn_b").1.1
      = (d0.deidentifyValue emptyTables "bob" .TypeSSN "ssn_a").1.1 :=
  claim_C2 d0 emptyTables "bob" .TypeSSN "ssn_a" "ssn_b" (by decide)
    (Or.inl rfl) (Or.inl rfl)

/-! ### Claim C3: SSN validity -/

theorem hashToIndex_lt (bs : List Nat) (max : Nat) (h : 0 < max) : hashToIndex bs max < max := by
  unfold hashToIndex
  split
  · exact h
  · exact Nat.mod_lt _ h

/-- ssnMatchesSpecFormat is the spec's SSN shape `^\d{3}-\d{2}-\d{4}$`,
written from the spec's words to compare the generator's output against. -/
def ssnMatchesSpecFormat (s : String) : Bool :=
  s.length = 11 &&
  (s.data.take 3).all Char.isDigit &&
  s.data[3]? = some '-' &&
  ((s.data.drop 4).take 2).all Char.isDigit &&
  s.data[6]? = some '-' &&
  ((s.data.drop 7).take 4).all Char.isDigit

theorem natDigits_three (a : Nat) (h1 : 100 ≤ a) (h2 : a < 1000) :
    natDigits a = [a / 100, a / 10 % 10, a % 10] := by
  rw [natDigits_step a (by omega), natDigits_step (a / 10) (by omega)]
  have e1 : a / 10 / 10 = a / 100 := by omega
  rw [e1, natDigits_small (a / 100) (by omega)]
  have e2 : a / 10 % 10 = a / 10 % 10 := rfl
  simp

theorem ssn_shape_format (A B C : List Char) (hA : A.length = 3) (hB : B.length = 2)
    (hC : C.length = 4) (hdA : ∀ c ∈ A, c.isDigit = true) (hdB : ∀ c ∈ B, c.isDigit = true)
    (hdC : ∀ c ∈ C, c.isDigit = true) :
    ssnMatchesSpecFormat (String.mk (A ++ '-' :: (B ++ '-' :: C))) = true := by
  have hdrop4 : (A ++ '-' :: (B ++ '-' :: C)).drop 4 = B ++ '-' :: C := by
    have e : (4:Nat) = A.length + 1 := by omega
    rw [e, ← List.drop_drop, List.drop_left]
    rfl
  have hdrop7 : (A ++ '-' :: (B ++ '-' :: C)).drop 7 = C := by
    have e : (7:Nat) = 4 + 3 := rfl
    rw [e, ← List.drop_drop, hdrop4]
    have e2 : (3:Nat) = B.length + 1 := by omega
    rw [e2, ← List.drop_drop, List.drop_left]
    rfl
  simp only [ssnMatchesSpecFormat, string_data_mk, string_length_data, Bool.and_eq_true,
    decide_eq_true_eq, List.all_eq_true]
  refine ⟨⟨⟨⟨⟨?_, ?_⟩, ?_⟩, ?_⟩, ?_⟩, ?_⟩
  · simp [hA, hB, hC]
  · rw [List.take_left' hA]
    exact hdA
  · rw [List.getElem?_append_right (by omega), hA]
    simp
  · rw [hdrop4, List.take_left' hB]
    exact hdB
  · have h6 : (A ++ '-' :: (B ++ '-' :: C))[6]? =
        ((A ++ '-' :: (B ++ '-' :: C)).drop 4)[2]? := by
      rw [List.getElem?_drop]
    rw [h6, hdrop4, List.getElem?_append_right (by omega), hB]
    simp
  · rw [hdrop7, ← hC, List.take_length]
    exact hdC

/-- Claim C3: for every secret key and every input string, the SSN generator's
output matches `^\d{3}-\d{2}-\d{4}$`, its three-digit area segment is never
"666" and never in "900"–"999"; the area value always lies in 100–665 (in fact
100–664, so the source's remap of 666 to 667 never fires), the group in 1–99
and the serial in 1–9999. -/
theorem claim_C3 (d : Deidentifier) (s : String) :
    ssnMatchesSpecFormat (d.generateSSN s) = true ∧
    (∃ area group serial,
      d.generateSSN s = padNum 3 area ++ "-" ++ padNum 2 group ++ "-" ++ padNum 4 serial ∧
      100 ≤ area ∧ area ≤ 665 ∧ area ≠ 666 ∧ area < 900 ∧
      1 ≤ group ∧ group ≤ 99 ∧ 1 ≤ serial ∧ serial ≤ 9999) ∧
    (d.generateSSN s).data.take 3 ≠ ['6', '6', '6'] ∧
    (∀ c, (d.generateSSN s).data.head? = some c → c ≠ '9') := by
  have hpow2 : (10:Nat) ^ 2 = 100 := by norm_num
  have hpow3 : (10:Nat) ^ 3 = 1000 := by norm_num
  have hpow4 : (10:Nat) ^ 4 = 10000 := by norm_num
  have harea := hashToIndex_lt (hashSlice (d.deterministicHash s) 0 8) 565 (by omega)
  have hgroup := hashToIndex_lt (hashSlice (d.deterministicHash s) 8 16) 99 (by omega)
  have hserial := hashToIndex_lt (hashSlice (d.deterministicHash s) 16 24) 9999 (by omega)
  set ar := 100 + hashToIndex (hashSlice (d.deterministicHash s) 0 8) 565 with har
  set gr := 1 + hashToIndex (hashSlice (d.deterministicHash s) 8 16) 99 with hgr
  set se := 1 + hashToIndex (hashSlice (d.deterministicHash s) 16 24) 9999 with hse
  have hifs : d.generateSSN s = padNum 3 ar ++ "-" ++ padNum 2 gr ++ "-" ++ padNum 4 se := by
    simp only [Deidentifier.generateSSN]
    rw [if_neg (by omega)]
  have hdash : ("-" : String).data = ['-'] := rfl
  have hdata : (d.generateSSN s).data =
      (padNum 3 ar).data ++ '-' :: ((padNum 2 gr).data ++ '-' :: (padNum 4 se).data) := by
    rw [hifs]
    simp [string_data_append, hdash, List.append_assoc]
  have lenA : (padNum 3 ar).data.length = 3 := padNum_length 3 ar (by omega) (by omega)
  have lenB : (padNum 2 gr).data.length = 2 := padNum_length 2 gr (by omega) (by omega)
  have lenC : (padNum 4 se).data.length = 4 := padNum_length 4 se (by omega) (by omega)
  have hAdigits : (padNum 3 ar).data = [digitChar (ar / 100), digitChar (ar / 10 % 10),
      digitChar (ar % 10)] := by
    rw [padNum_eq_decimalStr 3 ar (by omega) (by omega)]
    simp only [decimalStr, string_data_mk]
    rw [natDigits_three ar (by omega) (by omega)]
    rfl
  have hstr : d.generateSSN s = String.mk ((padNum 3 ar).data ++ '-' ::
      ((padNum 2 gr).data ++ '-' :: (padNum 4 se).data)) := String.ext hdata
  refine ⟨?_, ⟨ar, gr, se, hifs, by omega, by omega, by omega, by omega, by omega, by omega,
    by omega, by omega⟩, ?_, ?_⟩
  · rw [hstr]
    exact ssn_shape_format _ _ _ lenA lenB lenC (padNum_digits 3 ar) (padNum_digits 2 gr)
      (padNum_digits 4 se)
  · rw [hdata, List.take_left' lenA, hAdigits]
    intro hcontra
    simp only [List.cons.injEq, and_true] at hcontra
    obtain ⟨e1, e2, e3⟩ := hcontra
    have hq := digitChar_inj _ _ (by omega) (by omega)
      (e1.trans (show ('6':Char) = digitChar 6 by decide))
    have ht := digitChar_inj _ _ (by omega) (by omega)
      (e2.trans (show ('6':Char) = digitChar 6 by decide))
    have hu := digitChar_inj _ _ (by omega) (by omega)
      (e3.trans (show ('6':Char) = digitChar 6 by decide))
    omega
  · intro c hc
    rw [hdata, hAdigits] at hc
    simp only [List.cons_append, List.head?_cons, Option.some.injEq] at hc
    intro hcontra
    rw [hcontra] at hc
    have h9 := digitChar_inj _ _ (show ar / 100 < 10 by omega) (by omega)
      (hc.trans (show ('9':Char) = digitChar 9 by decide))
    omega

/-! ### Claim C4: credit-card validity -/

/-- stripSpaces removes the space separators, as the spec's property statement
does before checking the card number. -/
def stripSpaces (s : String) : String := String.mk (s.data.filter (fun c => !(c == ' ')))

theorem foldl_append_decimal (f : Nat → Nat) (l : List Nat) (s0 : String)
    (h : ∀ i ∈ l, f i < 10) :
    (l.foldl (fun acc i => acc ++ decimalStr (f i)) s0).data
      = s0.data ++ l.map (fun i => digitChar (f i)) := by
  induction l generalizing s0 with
  | nil => simp
  | cons x xs ih =>
    simp only [List.foldl_cons, List.map_cons]
    rw [ih _ (fun i hi => h i (List.mem_cons_of_mem _ hi))]
    rw [string_data_append, decimalStr_single (f x) (h x (by simp))]
    simp

theorem formatGroups4_filter (i : Nat) (cs : List Char)
    (h : ∀ c ∈ cs, (c == ' ') = false) :
    (formatGroups4 i cs).filter (fun c => !(c == ' ')) = cs := by
  induction cs generalizing i with
  | nil => simp [formatGroups4]
  | cons c rest ih =>
    simp only [formatGroups4]
    rw [List.filter_append, ih (i + 1) (fun c' hc' => h c' (List.mem_cons_of_mem _ hc'))]
    have hc : (c == ' ') = false := h c (by simp)
    split <;> simp [hc]

/-- Claim C4: for every secret key and every input string, the credit-card
generator's output, after removing the space separators, is a 16-digit string
that starts with "4000" and whose 16th digit is the Luhn check digit
(`calculateLuhnCheckDigit`) of the first 15. -/
theorem claim_C4 (d : Deidentifier) (s : String) :
    ∃ body : List Nat,
      body.length = 15 ∧
      body.take 4 = [4, 0, 0, 0] ∧
      (∀ x ∈ body, x < 10) ∧
      stripSpaces (d.generateCreditCard s) =
        String.mk (body.map digitChar) ++
          decimalStr (calculateLuhnCheckDigit (String.mk (body.map digitChar))) ∧
      (stripSpaces (d.generateCreditCard s)).length = 16 ∧
      (stripSpaces (d.generateCreditCard s)).data.take 4 = ['4', '0', '0', '0'] ∧
      (∀ c ∈ (stripSpaces (d.generateCreditCard s)).data, c.isDigit = true) := by
  classical
  set hash := d.deterministicHash s with hhash
  set dig : Nat → Nat := fun i => hashToIndex (hashSlice hash (i*2) (i*2+2)) 10 with hdig
  have hdiglt : ∀ i, dig i < 10 := fun i => hashToIndex_lt _ _ (by omega)
  refine ⟨[4, 0, 0, 0] ++ (List.range 11).map dig, ?_, ?_, ?_, ?_⟩
  · simp
  · rfl
  · intro x hx
    rcases List.mem_append.mp hx with hx | hx
    · fin_cases hx <;> omega
    · obtain ⟨i, -, rfl⟩ := List.mem_map.mp hx
      exact hdiglt i
  set cardNumber := (List.range 11).foldl
    (fun acc i => acc ++ decimalStr (hashToIndex (hashSlice hash (i*2) (i*2+2)) 10)) "4000"
    with hcard
  clear_value cardNumber
  have hcardData : cardNumber.data =
      ([4, 0, 0, 0] ++ (List.range 11).map dig).map digitChar := by
    rw [hcard, foldl_append_decimal dig (List.range 11) "4000" (fun i _ => hdiglt i)]
    rw [List.map_append, List.map_map]
    rfl
  have hcd : calculateLuhnCheckDigit cardNumber < 10 := by
    unfold calculateLuhnCheckDigit
    exact Nat.mod_lt _ (by omega)
  have hgen : d.generateCreditCard s =
      String.mk (formatGroups4 0 (cardNumber ++ decimalStr (calculateLuhnCheckDigit
        cardNumber)).data) := by
    simp only [Deidentifier.generateCreditCard]
    rw [hcard]
  have hfullData : (cardNumber ++ decimalStr (calculateLuhnCheckDigit cardNumber)).data =
      (([4, 0, 0, 0] ++ (List.range 11).map dig).map digitChar) ++
        [digitChar (calculateLuhnCheckDigit cardNumber)] := by
    rw [string_data_append, hcardData, decimalStr_single _ hcd]
  have hallDigits : ∀ c ∈ (cardNumber ++ decimalStr (calculateLuhnCheckDigit
      cardNumber)).data, ∃ v, v < 10 ∧ c = digitChar v := by
    intro c hc
    rw [hfullData] at hc
    rcases List.mem_append.mp hc with hc | hc
    · obtain ⟨v, hv, rfl⟩ := List.mem_map.mp hc
      rcases List.mem_append.mp hv with hv | hv
      · fin_cases hv
        · exact ⟨4, by omega, rfl⟩
        · exact ⟨0, by omega, rfl⟩
        · exact ⟨0, by omega, rfl⟩
        · exact ⟨0, by omega, rfl⟩
      · obtain ⟨i, -, rfl⟩ := List.mem_map.mp hv
        exact ⟨dig i, hdiglt i, rfl⟩
    · rw [List.mem_singleton] at hc
      subst hc
      exact ⟨_, hcd, rfl⟩
  have hnospace : ∀ c ∈ (cardNumber ++ decimalStr (calculateLuhnCheckDigit
      cardNumber)).data, (c == ' ') = false := by
    intro c hc
    obtain ⟨v, hv, rfl⟩ := hallDigits c hc
    have := digitChar_ne_space v hv
    simpa using this
  have hstrip : stripSpaces (d.generateCreditCard s) =
      cardNumber ++ decimalStr (calculateLuhnCheckDigit cardNumber) := by
    rw [hgen]
    unfold stripSpaces
    rw [string_data_mk, formatGroups4_filter 0 _ hnospace]
  have hpan : String.mk (([4, 0, 0, 0] ++ (List.range 11).map dig).map digitChar) =
      cardNumber := String.ext hcardData.symm
  refine ⟨?_, ?_, ?_, ?_⟩
  · rw [hstrip, hpan]
  · rw [hstrip, string_length_data, hfullData]
    simp
  · rw [hstrip, hfullData]
    rfl
  · intro c hc
    rw [hstrip] at hc
    obtain ⟨v, hv, rfl⟩ := hallDigits c hc
    exact digitChar_isDigit v hv

/-! ### Claim C5: phone skeleton preservation -/

/-- Claim C5: for every input whose skeleton the phone regex captures, the
phone generator's output preserves the captured country-code prefix, opening
parenthesis, area code and both separators verbatim, with exchange
`200 + H[0:8] mod 799` rendered as three digits and subscriber
`1000 + H[8:16] mod 8999` rendered as four digits; for every input the
skeleton regex does not match, the output is the Generic replacement
`"DATA_"` followed by the hex of the first 8 hash bytes. -/
theorem claim_C5 (d : Deidentifier) (s : String) :
    (∀ ms, phoneSubmatches s = some ms →
      d.generatePhone s =
        ms.getD 1 "" ++ ms.getD 2 "" ++ ms.getD 3 "" ++ ms.getD 4 "" ++
          padNum 3 (200 + hashToIndex (hashSlice (d.deterministicHash s) 0 8) 799) ++
          ms.getD 6 "" ++
          padNum 4 (1000 + hashToIndex (hashSlice (d.deterministicHash s) 8 16) 8999) ∧
      200 ≤ 200 + hashToIndex (hashSlice (d.deterministicHash s) 0 8) 799 ∧
      200 + hashToIndex (hashSlice (d.deterministicHash s) 0 8) 799 ≤ 998 ∧
      (padNum 3 (200 + hashToIndex (hashSlice (d.deterministicHash s) 0 8) 799)).length = 3 ∧
      (∀ c ∈ (padNum 3 (200 + hashToIndex (hashSlice (d.deterministicHash s) 0 8)
        799)).data, c.isDigit = true) ∧
      1000 ≤ 1000 + hashToIndex (hashSlice (d.deterministicHash s) 8 16) 8999 ∧
      1000 + hashToIndex (hashSlice (d.deterministicHash s) 8 16) 8999 ≤ 9999 ∧
      (padNum 4 (1000 + hashToIndex (hashSlice (d.deterministicHash s) 8 16) 8999)).length
        = 4 ∧
      (∀ c ∈ (padNum 4 (1000 + hashToIndex (hashSlice (d.deterministicHash s) 8 16)
        8999)).data, c.isDigit = true)) ∧
    (phoneSubmatches s = none →
      d.generatePhone s = "DATA_" ++ hexEncode (hashSlice (d.deterministicHash s) 0 8)) := by
  have hex := hashToIndex_lt (hashSlice (d.deterministicHash s) 0 8) 799 (by omega)
  have hnum := hashToIndex_lt (hashSlice (d.deterministicHash s) 8 16) 8999 (by omega)
  constructor
  · intro ms h
    refine ⟨?_, by omega, by omega, padNum_length 3 _ (by omega) (by omega), padNum_digits 3 _,
      by omega, by omega, padNum_length 4 _ (by omega) (by omega), padNum_digits 4 _⟩
    unfold Deidentifier.generatePhone
    rw [h]
  · intro h
    unfold Deidentifier.generatePhone
    rw [h]
    rfl

/-- Witness for C5 at concrete inputs: `"(555) 123-4567"` matches the skeleton
(prefix empty, parenthesis, area code and separators preserved), and `"zz"`
falls back to the Generic replacement. -/
theorem claim_C5_witness :
    d0.generatePhone "(555) 123-4567" =
      "" ++ "(" ++ "555" ++ ") " ++
        padNum 3 (200 + hashToIndex (hashSlice (d0.deterministicHash "(555) 123-4567") 0 8)
          799) ++
        "-" ++
        padNum 4 (1000 + hashToIndex (hashSlice (d0.deterministicHash "(555) 123-4567") 8 16)
          8999) ∧
    d0.generatePhone "zz" = "DATA_" ++ hexEncode (hashSlice (d0.deterministicHash "zz") 0 8) :=
  ⟨((claim_C5 d0 "(555) 123-4567").1
      ["(555) 123-4567", "", "(", "555", ") ", "123", "-", "4567"] (by decide)).1,
    (claim_C5 d0 "zz").2 (by decide)⟩

/-! ### Claim C6: nil and empty preservation in Table and Slices -/

theorem deidentifyValue_eta (d : Deidentifier) (st : MapTables) (v : String) (ty : DataType)
    (c : String) : d.deidentifyValue st v ty c =
      (((d.deidentifyValue st v ty c).1.1, none), (d.deidentifyValue st v ty c).2) := by
  rw [← deidentifyValue_err_none d st v ty c]

theorem deidentifyValue_empty (d : Deidentifier) (st : MapTables) (ty : DataType)
    (c : String) : d.deidentifyValue st "" ty c = (("", none), st) := rfl

theorem processColumnValues_ok (d : Deidentifier) (c : String) (ty : DataType) :
    ∀ (vals : List (Option String)) (j : Nat) (st : MapTables),
    ∃ out st',
      d.processColumnValues c ty vals j st = (.ok out, st') ∧
      out.length = vals.length ∧
      (∀ k : Nat, vals[k]? = some none → out[k]? = some none) ∧
      (∀ (k : Nat) (v : String), vals[k]? = some (some v) →
        ∃ w, out[k]? = some (some w) ∧ (v = "" → w = "")) := by
  intro vals
  induction vals with
  | nil =>
    intro j st
    exact ⟨[], st, rfl, rfl, by intro k h; simp at h, by intro k v h; simp at h⟩
  | cons cell rest ih =>
    intro j st
    cases cell with
    | none =>
      obtain ⟨out, st', heq, hlen, hnil, hval⟩ := ih (j + 1) st
      refine ⟨none :: out, st', ?_, by simp [hlen], ?_, ?_⟩
      · simp only [Deidentifier.processColumnValues, heq]
      · intro k hk
        match k with
        | 0 => simp
        | k + 1 =>
          simp only [List.getElem?_cons_succ] at hk ⊢
          exact hnil k hk
      · intro k v hk
        match k with
        | 0 => simp at hk
        | k + 1 =>
          simp only [List.getElem?_cons_succ] at hk ⊢
          exact hval k v hk
    | some s =>
      obtain ⟨out, st', heq, hlen, hnil, hval⟩ := ih (j + 1) (d.deidentifyValue st s ty c).2
      refine ⟨some (d.deidentifyValue st s ty c).1.1 :: out, st', ?_, by simp [hlen], ?_, ?_⟩
      · rw [Deidentifier.processColumnValues, deidentifyValue_eta d st s ty c]
        simp only
        rw [heq]
      · intro k hk
        match k with
        | 0 => simp at hk
        | k + 1 =>
          simp only [List.getElem?_cons_succ] at hk ⊢
          exact hnil k hk
      · intro k v hk
        match k with
        | 0 =>
          have hsv : s = v := by simpa using hk
          subst hsv
          refine ⟨(d.deidentifyValue st s ty c).1.1, by simp, ?_⟩
          intro hempty
          subst hempty
          rfl
        | k + 1 =>
          simp only [List.getElem?_cons_succ] at hk ⊢
          exact hval k v hk

theorem processColumns_ok (d : Deidentifier) :
    ∀ (cols : List Column) (st : MapTables),
    ∃ outCols st',
      d.processColumns cols st = (.ok outCols, st') ∧
      outCols.length = cols.length ∧
      (∀ (i : Nat) (col col' : Column), cols[i]? = some col → outCols[i]? = some col' →
        col'.name = col.name ∧ col'.dataType = col.dataType ∧
        col'.values.length = col.values.length ∧
        (∀ k : Nat, col.values[k]? = some none → col'.values[k]? = some none) ∧
        (∀ (k : Nat) (v : String), col.values[k]? = some (some v) →
          ∃ w, col'.values[k]? = some (some w) ∧ (v = "" → w = ""))) := by
  intro cols
  induction cols with
  | nil =>
    intro st
    exact ⟨[], st, rfl, rfl, by intro i col col' h; simp at h⟩
  | cons col rest ih =>
    intro st
    obtain ⟨vals, st1, hv, hvlen, hvnil, hvval⟩ :=
      processColumnValues_ok d col.name col.dataType col.values 0 st
    obtain ⟨outCols, st2, hr, hrlen, hrprop⟩ := ih st1
    refine ⟨{ name := col.name, dataType := col.dataType, values := vals } :: outCols, st2,
      ?_, by simp [hrlen], ?_⟩
    · simp only [Deidentifier.processColumns, hv, hr]
    · intro i c c' hc hc'
      match i with
      | 0 =>
        simp only [List.getElem?_cons_zero, Option.some.injEq] at hc hc'
        subst hc
        subst hc'
        exact ⟨rfl, rfl, hvlen, hvnil, hvval⟩
      | i + 1 =>
        simp only [List.getElem?_cons_succ] at hc hc'
        exact hrprop i c c' hc hc'

theorem processCells_ok_shape (d : Deidentifier) (config : slicesConfig) (rowIndex : Nat) :
    ∀ (row : List String) (j : Nat) (st : MapTables) (out : List String),
      (d.processCells config rowIndex j row st).1 = .ok out →
      out.length = row.length ∧
      (∀ k : Nat, row[k]? = some "" → out[k]? = some "") := by
  intro row
  induction row with
  | nil =>
    intro j st out h
    simp only [Deidentifier.processCells] at h
    cases h
    exact ⟨rfl, by intro k hk; simp at hk⟩
  | cons value rest ih =>
    intro j st out h
    by_cases hv : value = ""
    · subst hv
      simp only [Deidentifier.processCells, if_pos rfl] at h
      rcases hrec : d.processCells config rowIndex (j + 1) rest st with ⟨res, strec⟩
      rw [hrec] at h
      cases res with
      | ok out' =>
        simp only at h
        cases h
        obtain ⟨hlen, hemp⟩ := ih (j + 1) st out' (by rw [hrec])
        refine ⟨by simp [hlen], ?_⟩
        intro k hk
        match k with
        | 0 => simp
        | k + 1 =>
          simp only [List.getElem?_cons_succ] at hk ⊢
          exact hemp k hk
      | err e => simp at h
      | panicked => simp at h
    · simp only [Deidentifier.processCells, if_neg hv] at h
      split at h
      next ty nm _ _ =>
        rw [deidentifyValue_err_none d st value ty nm] at h
        simp only at h
        rcases hrec : d.processCells config rowIndex (j + 1) rest
          (d.deidentifyValue st value ty nm).2 with ⟨res, strec⟩
        rw [hrec] at h
        cases res with
        | ok out' =>
          simp only at h
          cases h
          obtain ⟨hlen, hemp⟩ := ih (j + 1) (d.deidentifyValue st value ty nm).2 out'
            (by rw [hrec])
          refine ⟨by simp [hlen], ?_⟩
          intro k hk
          match k with
          | 0 =>
            simp only [List.getElem?_cons_zero, Option.some.injEq] at hk
            exact absurd hk hv
          | k + 1 =>
            simp only [List.getElem?_cons_succ] at hk ⊢
            exact hemp k hk
        | err e => simp at h
        | panicked => simp at h
      next =>
        simp at h

/-- Claim C6: the Table transform succeeds and returns a table of identical
shape in which every nil cell stays nil at the same position and every other
cell becomes a (present) replacement that is empty exactly when the original
was empty; and a successful Slices row keeps its length, with every
empty-string cell staying the empty string at the same position.  Nil and
empty cells thus never reach the generator: they are reproduced unchanged. -/
theorem claim_C6 :
    (∀ (d : Deidentifier) (st : MapTables) (t : Table),
      ∃ t', (d.Table t st).1 = .ok t' ∧
        t'.Columns.length = t.Columns.length ∧
        (∀ (i : Nat) (col col' : Column), t.Columns[i]? = some col →
          t'.Columns[i]? = some col' →
          col'.name = col.name ∧ col'.dataType = col.dataType ∧
          col'.values.length = col.values.length ∧
          (∀ k : Nat, col.values[k]? = some none → col'.values[k]? = some none) ∧
          (∀ (k : Nat) (v : String), col.values[k]? = some (some v) →
            ∃ w, col'.values[k]? = some (some w) ∧ (v = "" → w = "")))) ∧
    (∀ (d : Deidentifier) (config : slicesConfig) (rowIndex : Nat) (st : MapTables)
      (row out : List String),
      (d.processSliceRow row config rowIndex st).1 = .ok out →
      out.length = row.length ∧
      (∀ k : Nat, row[k]? = some "" → out[k]? = some "")) := by
  constructor
  · intro d st t
    obtain ⟨outCols, st', heq, hlen, hprop⟩ := processColumns_ok d t.Columns st
    refine ⟨⟨outCols⟩, ?_, hlen, hprop⟩
    simp only [Deidentifier.Table, heq]
  · intro d config rowIndex st row out h
    exact processCells_ok_shape d config rowIndex row 0 st out h

/-- Witness for C6 at concrete inputs: a one-column table (nil, empty, "x")
transforms successfully, and a concrete Slices row with an empty first cell
keeps its shape with the empty cell intact. -/
theorem claim_C6_witness :
    (∃ t', (d0.Table ⟨[⟨"c0", .TypeGeneric, [none, some "", some "x"]⟩]⟩ emptyTables).1 =
      .ok t') ∧
    ((["", "DATA_0001020304050607"] : List String).length =
        (["", "x"] : List String).length ∧
      (∀ k : Nat, (["", "x"] : List String)[k]? = some "" →
        (["", "DATA_0001020304050607"] : List String)[k]? = some "")) := by
  constructor
  · obtain ⟨t', h1, -, -⟩ := claim_C6.1 d0 emptyTables
      ⟨[⟨"c0", .TypeGeneric, [none, some "", some "x"]⟩]⟩
    exact ⟨t', h1⟩
  · exact claim_C6.2 d0 ⟨[.TypeGeneric, .TypeGeneric], ["a", "b"], 2⟩ 0 emptyTables
      ["", "x"] ["", "DATA_0001020304050607"] (by rfl)

/-! ### Claim C7: schema mismatch on explicitly supplied arrays -/

theorem inferColumnTypes_length (r : List String) (rs : List (List String)) :
    (inferColumnTypes (r :: rs)).length = r.length := by
  simp [inferColumnTypes]

/-- Counterexample to C7 as stated: a caller-supplied empty name array (length
0, different from the 2 data columns) does not fail — `setDefaultColumnNames`
treats a `len == 0` array as omitted and substitutes defaults, so the call
succeeds. -/
theorem claim_C7_counterexample :
    (d0.Slices [["", ""]] [.types [.TypeGeneric, .TypeGeneric], .names []] emptyTables).1 =
      .ok [["", ""]] := by rfl

theorem parseSlicesParameters_eq (r : List String) (rs : List (List String))
    (ts : List DataType) (ns : List String) :
    parseSlicesParameters (r :: rs) [.types ts, .names ns] =
      (let TS := if ts.length = 0 then inferColumnTypes (r :: rs) else ts
       let NS := if ns.length = 0 then
           (List.range r.length).map (fun i => "column_" ++ decimalStr i) else ns
       if TS.length ≠ r.length ∨ NS.length ≠ r.length then
         .error (schemaMismatchMsg r.length TS.length NS.length)
       else .ok ⟨TS, NS, r.length⟩) := by
  unfold parseSlicesParameters parseOptionalParameters setDefaultColumnNames
    inferOrValidateColumnTypes validateSlicesConfig
  simp only [List.headD_cons]
  by_cases hns : ns.length = 0 <;> by_cases hts : ts.length = 0 <;> simp [hns, hts] <;>
    (split
     · next heq => split at heq <;> simp_all
     · next heq => split at heq <;> simp_all)

/-- Claim C7 (amended): for every non-empty row-slice input, a caller-supplied
non-empty category array or name array whose length differs from the width
of the first row makes Slices fail fast with the schema-mismatch error and no
output; a supplied empty array is instead treated as omitted (see the
counterexample).  In particular the claim's 2-column scenario with categories
of length 1 and names of length 2 fails. -/
theorem claim_C7 (d : Deidentifier) (st : MapTables) (r : List String)
    (rs : List (List String)) (ts : List DataType) (ns : List String)
    (h : (ts ≠ [] ∧ ts.length ≠ r.length) ∨ (ns ≠ [] ∧ ns.length ≠ r.length)) :
    (d.Slices (r :: rs) [.types ts, .names ns] st).1 =
      .err (schemaMismatchMsg r.length
        (if ts.length = 0 then r.length else ts.length)
        (if ns.length = 0 then r.length else ns.length)) := by
  have hTL : (if ts.length = 0 then inferColumnTypes (r :: rs) else ts).length =
      if ts.length = 0 then r.length else ts.length := by
    split <;> simp [inferColumnTypes_length]
  have hNL : (if ns.length = 0 then
      (List.range r.length).map (fun i => "column_" ++ decimalStr i) else ns).length =
      if ns.length = 0 then r.length else ns.length := by
    split <;> simp
  have hcond : (if ts.length = 0 then r.length else ts.length) ≠ r.length ∨
      (if ns.length = 0 then r.length else ns.length) ≠ r.length := by
    rcases h with ⟨hne, hlen⟩ | ⟨hne, hlen⟩
    · left
      rw [if_neg (by simpa [List.length_eq_zero] using hne)]
      exact hlen
    · right
      rw [if_neg (by simpa [List.length_eq_zero] using hne)]
      exact hlen
  simp only [Deidentifier.Slices, parseSlicesParameters_eq]
  simp only [hTL, hNL]
  rw [if_pos hcond]

/-- Witness for C7 (amended) at the claim's concrete scenario: a 2-column
matrix with a category array of length 1 and a name array of length 2 fails
with the schema-mismatch error. -/
theorem claim_C7_witness :
    (d0.Slices [["a", "b"]] [.types [.TypeGeneric], .names ["x", "y"]] emptyTables).1 =
      .err (schemaMismatchMsg 2 (if (1:Nat) = 0 then 2 else 1) (if (2:Nat) = 0 then 2 else 2)) :=
  claim_C7 d0 emptyTables ["a", "b"] [] [.TypeGeneric] ["x", "y"]
    (Or.inl ⟨by decide, by decide⟩)

/-! ### Claim C10: first-row-width indexing, in-bounds and panic behaviour -/

theorem parseOptionalParameters_numCols (opts : List GoVal) (cfg cfg' : slicesConfig)
    (h : parseOptionalParameters opts cfg = .ok cfg') : cfg'.numCols = cfg.numCols := by
  match opts with
  | [] => cases h; rfl
  | .types ts :: rest =>
    match rest with
    | [] => cases h; rfl
    | .names ns :: _ => cases h; rfl
    | .types _ :: _ => cases h
    | .other :: _ => cases h
  | .names _ :: _ => cases h
  | .other :: _ => cases h

theorem parseSlicesParameters_ok (data : List (List String)) (opts : List GoVal)
    (config : slicesConfig) (h : parseSlicesParameters data opts = .ok config) :
    config.columnTypes.length = config.numCols ∧
    config.columnNames.length = config.numCols ∧
    config.numCols = (data.headD []).length := by
  unfold parseSlicesParameters at h
  simp only [] at h
  rcases hp : parseOptionalParameters opts
      ⟨[], [], (data.headD []).length⟩ with e | cfg1
  · rw [hp] at h
    simp at h
  · rw [hp] at h
    simp only at h
    have hnum : cfg1.numCols = (data.headD []).length :=
      parseOptionalParameters_numCols opts _ cfg1 hp
    rcases hv : validateSlicesConfig (inferOrValidateColumnTypes data
        (setDefaultColumnNames cfg1)) with e | u
    · rw [hv] at h
      simp at h
    · rw [hv] at h
      simp only at h
      cases h
      unfold validateSlicesConfig at hv
      split at hv
      · simp at hv
      · next hcond =>
        push_neg at hcond
        have hnum2 : (inferOrValidateColumnTypes data (setDefaultColumnNames cfg1)).numCols
            = cfg1.numCols := by
          unfold inferOrValidateColumnTypes setDefaultColumnNames
          split <;> split <;> rfl
        exact ⟨hcond.1, hcond.2, by rw [hnum2, hnum]⟩

theorem processCells_no_err (d : Deidentifier) (config : slicesConfig) (rowIndex : Nat) :
    ∀ (row : List String) (j : Nat) (st : MapTables) (e : GoErr),
    (d.processCells config rowIndex j row st).1 ≠ .err e := by
  intro row
  induction row with
  | nil => intro j st e h; simp [Deidentifier.processCells] at h
  | cons value rest ih =>
    intro j st e h
    by_cases hv : value = ""
    · subst hv
      simp only [Deidentifier.processCells, if_pos rfl] at h
      rcases hrec : d.processCells config rowIndex (j + 1) rest st with ⟨res, strec⟩
      rw [hrec] at h
      cases res with
      | ok out' => simp at h
      | err e' =>
        simp only at h
        cases h
        exact ih (j + 1) st e (by rw [hrec])
      | panicked => simp at h
    · simp only [Deidentifier.processCells, if_neg hv] at h
      split at h
      next ty nm _ _ =>
        rw [deidentifyValue_err_none d st value ty nm] at h
        simp only at h
        rcases hrec : d.processCells config rowIndex (j + 1) rest
          (d.deidentifyValue st value ty nm).2 with ⟨res, strec⟩
        rw [hrec] at h
        cases res with
        | ok out' => simp at h
        | err e' =>
          simp only at h
          cases h
          exact ih (j + 1) _ e (by rw [hrec])
        | panicked => simp at h
      next => simp at h

theorem processCells_no_panic (d : Deidentifier) (config : slicesConfig) (rowIndex : Nat) :
    ∀ (row : List String) (j : Nat) (st : MapTables),
    (∀ k : Nat, k < row.length → j + k < config.columnTypes.length ∧
      j + k < config.columnNames.length) →
    (d.processCells config rowIndex j row st).1 ≠ .panicked := by
  intro row
  induction row with
  | nil => intro j st _ h; simp [Deidentifier.processCells] at h
  | cons value rest ih =>
    intro j st hb h
    by_cases hv : value = ""
    · subst hv
      simp only [Deidentifier.processCells, if_pos rfl] at h
      rcases hrec : d.processCells config rowIndex (j + 1) rest st with ⟨res, strec⟩
      rw [hrec] at h
      cases res with
      | ok out' => simp at h
      | err e' => simp at h
      | panicked =>
        refine ih (j + 1) st ?_ (by rw [hrec])
        intro k hk
        have := hb (k + 1) (by simpa using hk)
        omega
    · simp only [Deidentifier.processCells, if_neg hv] at h
      have hj := hb 0 (by simp)
      obtain ⟨tyv, hty⟩ : ∃ x, config.columnTypes[j]? = some x :=
        ⟨_, List.getElem?_eq_getElem (by omega)⟩
      obtain ⟨nmv, hnm⟩ : ∃ x, config.columnNames[j]? = some x :=
        ⟨_, List.getElem?_eq_getElem (by omega)⟩
      rw [hty, hnm] at h
      simp only at h
      rw [deidentifyValue_err_none d st value tyv nmv] at h
      simp only at h
      rcases hrec : d.processCells config rowIndex (j + 1) rest
        (d.deidentifyValue st value tyv nmv).2 with ⟨res, strec⟩
      rw [hrec] at h
      cases res with
      | ok out' => simp at h
      | err e' => simp at h
      | panicked =>
        refine ih (j + 1) _ ?_ (by rw [hrec])
        intro k hk
        have := hb (k + 1) (by simpa using hk)
        omega

theorem processCells_panics (d : Deidentifier) (config : slicesConfig) (rowIndex : Nat)
    (hlen : config.columnTypes.length = config.columnNames.length) :
    ∀ (row : List String) (j : Nat) (st : MapTables),
    (∃ (k : Nat) (v : String), row[k]? = some v ∧ v ≠ "" ∧
      config.columnTypes.length ≤ j + k) →
    (d.processCells config rowIndex j row st).1 = .panicked := by
  intro row
  induction row with
  | nil =>
    intro j st hex
    obtain ⟨k, v, hk, -, -⟩ := hex
    simp at hk
  | cons value rest ih =>
    intro j st hex
    obtain ⟨k, v, hk, hv, hge⟩ := hex
    by_cases hval : value = ""
    · subst hval
      simp only [Deidentifier.processCells, if_pos rfl]
      match k, hk with
      | 0, hk =>
        exfalso
        apply hv
        simpa using hk.symm
      | k + 1, hk =>
        have hrec := ih (j + 1) st ⟨k, v, by simpa using hk, hv, by omega⟩
        rcases hres : d.processCells config rowIndex (j + 1) rest st with ⟨res, strec⟩
        rw [hres] at hrec
        simp only at hrec
        subst hrec
        simp [hres]
    · simp only [Deidentifier.processCells, if_neg hval]
      by_cases hj : j < config.columnTypes.length
      · obtain ⟨tyv, hty⟩ : ∃ x, config.columnTypes[j]? = some x :=
          ⟨_, List.getElem?_eq_getElem (by omega)⟩
        obtain ⟨nmv, hnm⟩ : ∃ x, config.columnNames[j]? = some x :=
          ⟨_, List.getElem?_eq_getElem (by omega)⟩
        rw [hty, hnm]
        simp only
        rw [deidentifyValue_err_none d st value tyv nmv]
        simp only
        match k, hk with
        | 0, hk => omega
        | k + 1, hk =>
          have hrec := ih (j + 1) (d.deidentifyValue st value tyv nmv).2
            ⟨k, v, by simpa using hk, hv, by omega⟩
          rcases hres : d.processCells config rowIndex (j + 1) rest
            (d.deidentifyValue st value tyv nmv).2 with ⟨res, strec⟩
          rw [hres] at hrec
          simp only at hrec
          subst hrec
          simp [hres]
      · have hty : config.columnTypes[j]? = none := List.getElem?_eq_none (by omega)
        rw [hty]

theorem processSliceData_no_panic (d : Deidentifier) (config : slicesConfig) :
    ∀ (rows : List (List String)) (i : Nat) (st : MapTables),
    (∀ row ∈ rows, ∀ k : Nat, k < row.length → k < config.columnTypes.length ∧
      k < config.columnNames.length) →
    (d.processSliceData rows config i st).1 ≠ .panicked := by
  intro rows
  induction rows with
  | nil => intro i st _ h; simp [Deidentifier.processSliceData] at h
  | cons row rest ih =>
    intro i st hb h
    simp only [Deidentifier.processSliceData] at h
    rcases hrow : d.processSliceRow row config i st with ⟨res, st1⟩
    rw [hrow] at h
    cases res with
    | ok out =>
      simp only at h
      rcases hrec : d.processSliceData rest config (i + 1) st1 with ⟨res2, st2⟩
      rw [hrec] at h
      cases res2 with
      | ok outs => simp at h
      | err e => simp at h
      | panicked =>
        refine ih (i + 1) st1 ?_ (by rw [hrec])
        intro row' hrow' k hk
        exact hb row' (List.mem_cons_of_mem _ hrow') k hk
    | err e => simp at h
    | panicked =>
      apply processCells_no_panic d config i row 0 st ?_ (by rw [← Deidentifier.processSliceRow, hrow])
      intro k hk
      have := hb row (by simp) k hk
      omega

theorem processSliceData_panics (d : Deidentifier) (config : slicesConfig)
    (hlen : config.columnTypes.length = config.columnNames.length) :
    ∀ (rows : List (List String)) (i : Nat) (st : MapTables),
    (∃ row ∈ rows, ∃ (k : Nat) (v : String), row[k]? = some v ∧ v ≠ "" ∧
      config.columnTypes.length ≤ k) →
    (d.processSliceData rows config i st).1 = .panicked := by
  intro rows
  induction rows with
  | nil =>
    intro i st hex
    obtain ⟨row, hmem, -⟩ := hex
    simp at hmem
  | cons row rest ih =>
    intro i st hex
    obtain ⟨row0, hmem, k, v, hk, hv, hge⟩ := hex
    simp only [Deidentifier.processSliceData]
    rcases List.mem_cons.mp hmem with rfl | hmem'
    · have hpan : (d.processSliceRow row0 config i st).1 = .panicked :=
        processCells_panics d config i hlen row0 0 st ⟨k, v, hk, hv, by omega⟩
      rcases hrow : d.processSliceRow row0 config i st with ⟨res, st1⟩
      rw [hrow] at hpan
      simp only at hpan
      subst hpan
      simp
    · rcases hrow : d.processSliceRow row config i st with ⟨res, st1⟩
      cases res with
      | ok out =>
        simp only
        have hrec := ih (i + 1) st1 ⟨row0, hmem', k, v, hk, hv, hge⟩
        rcases hres : d.processSliceData rest config (i + 1) st1 with ⟨res2, st2⟩
        rw [hres] at hrec
        simp only at hrec
        subst hrec
        simp [hres]
      | err e =>
        exfalso
        exact processCells_no_err d config i row 0 st e
          (by rw [← Deidentifier.processSliceRow, hrow])
      | panicked => simp

/-- Claim C10 (amended): Slices derives the column count, types and names from
the width of the first row and indexes them by each cell's position in its own
row, so when no row is wider than the first row every per-cell access is in
bounds and no panic occurs; a later row wider than the first row causes an
out-of-range panic rather than a schema error `when the overflowing cell is
non-empty` (an empty overflow cell is skipped before the index is touched —
see the counterexample), given that configuration parsing succeeded. -/
theorem claim_C10 :
    (∀ (d : Deidentifier) (st : MapTables) (data : List (List String))
      (optional : List GoVal),
      (∀ row ∈ data, row.length ≤ (data.headD []).length) →
      (d.Slices data optional st).1 ≠ SliceRes.panicked) ∧
    (∀ (d : Deidentifier) (st : MapTables) (r : List String) (rs : List (List String))
      (optional : List GoVal) (config : slicesConfig),
      parseSlicesParameters (r :: rs) optional = .ok config →
      (∃ row ∈ r :: rs, ∃ (k : Nat) (v : String),
        row[k]? = some v ∧ v ≠ "" ∧ r.length ≤ k) →
      (d.Slices (r :: rs) optional st).1 = SliceRes.panicked) := by
  constructor
  · intro d st data optional hb h
    match data with
    | [] => simp [Deidentifier.Slices] at h
    | r :: rs =>
      simp only [Deidentifier.Slices] at h
      rcases hp : parseSlicesParameters (r :: rs) optional with e | config
      · rw [hp] at h
        simp at h
      · rw [hp] at h
        simp only at h
        obtain ⟨hT, hN, hC⟩ := parseSlicesParameters_ok _ _ _ hp
        simp only [List.headD_cons] at hC
        refine processSliceData_no_panic d config (r :: rs) 0 st ?_ h
        intro row hrow k hk
        have := hb row hrow
        simp only [List.headD_cons] at this
        omega
  · intro d st r rs optional config hp hex
    obtain ⟨hT, hN, hC⟩ := parseSlicesParameters_ok _ _ _ hp
    simp only [List.headD_cons] at hC
    simp only [Deidentifier.Slices, hp]
    obtain ⟨row0, hmem, k, v, hk, hv, hge⟩ := hex
    exact processSliceData_panics d config (by omega) (r :: rs) 0 st
      ⟨row0, hmem, k, v, hk, hv, by omega⟩

/-- Counterexample to C10 as stated: a later row wider than the first whose
overflowing cell is the empty string does not panic — the empty cell passes
through before the out-of-range index is touched, and the call succeeds. -/
theorem claim_C10_counterexample :
    (d0.Slices [["a"], ["b", ""]] [.types [.TypeGeneric], .names ["c0"]] emptyTables).1 =
      .ok [["DATA_0001020304050607"], ["DATA_0001020304050607", ""]] := by rfl

/-- Witness for C10 (amended) at concrete inputs: equal-width rows never
panic, and a second row with the non-empty out-of-range cell "c" panics. -/
theorem claim_C10_witness :
    (d0.Slices [["a", "b"], ["c", ""]] [.types [.TypeGeneric, .TypeGeneric],
        .names ["x", "y"]] emptyTables).1 ≠ SliceRes.panicked ∧
    (d0.Slices [["a"], ["b", "c"]] [.types [.TypeGeneric], .names ["x"]] emptyTables).1 =
      SliceRes.panicked := by
  constructor
  · exact claim_C10.1 d0 emptyTables [["a", "b"], ["c", ""]] _ (by decide)
  · exact claim_C10.2 d0 emptyTables ["a"] [["b", "c"]] _
      ⟨[.TypeGeneric], ["x"], 1⟩ (by rfl)
      ⟨["b", "c"], by simp, 1, "c", by decide, by decide, by decide⟩

/-! ### Claim C8: type-inference sampling, scoring and thresholds -/

theorem fhst_snd_ge (scores : Scores) :
    ∀ (l : List DataType) (acc : DataType × Nat),
    acc.2 ≤ (l.foldl (fun acc t => if scores t > acc.2 then (t, scores t) else acc) acc).2 := by
  intro l
  induction l with
  | nil => intro acc; exact le_refl _
  | cons x xs ih =>
    intro acc
    refine le_trans ?_ (ih _)
    simp only [List.foldl_cons]
    split
    · simp
      omega
    · simp

theorem fhst_mem_le (scores : Scores) :
    ∀ (l : List DataType) (acc : DataType × Nat) (t : DataType), t ∈ l →
    scores t ≤ (l.foldl (fun acc t => if scores t > acc.2 then (t, scores t) else acc) acc).2 := by
  intro l
  induction l with
  | nil => intro acc t ht; simp at ht
  | cons x xs ih =>
    intro acc t ht
    rcases List.mem_cons.mp ht with rfl | ht'
    · refine le_trans ?_ (fhst_snd_ge scores xs _)
      simp only [List.foldl_cons]
      split <;> omega
    · exact ih _ t ht'

theorem fhst_inv (scores : Scores) :
    ∀ (l : List DataType) (acc : DataType × Nat),
    (scores acc.1 = acc.2 ∨ (acc.1 = .TypeGeneric ∧ acc.2 = 0)) →
    (scores (l.foldl (fun acc t => if scores t > acc.2 then (t, scores t) else acc) acc).1 =
        (l.foldl (fun acc t => if scores t > acc.2 then (t, scores t) else acc) acc).2 ∨
      ((l.foldl (fun acc t => if scores t > acc.2 then (t, scores t) else acc) acc).1 =
          .TypeGeneric ∧
        (l.foldl (fun acc t => if scores t > acc.2 then (t, scores t) else acc) acc).2 = 0)) := by
  intro l
  induction l with
  | nil => intro acc h; exact h
  | cons x xs ih =>
    intro acc h
    simp only [List.foldl_cons]
    apply ih
    split
    · exact Or.inl rfl
    · exact h

theorem fhst_fst_mem (scores : Scores) :
    ∀ (l : List DataType) (acc : DataType × Nat),
    ((l.foldl (fun acc t => if scores t > acc.2 then (t, scores t) else acc) acc).1 = acc.1 ∨
      (l.foldl (fun acc t => if scores t > acc.2 then (t, scores t) else acc) acc).1 ∈ l) := by
  intro l
  induction l with
  | nil => intro acc; exact Or.inl rfl
  | cons x xs ih =>
    intro acc
    simp only [List.foldl_cons]
    rcases ih (if scores x > acc.2 then (x, scores x) else acc) with h | h
    · rw [h]
      split
    
      · exact Or.inr (by simp)
      · exact Or.inl rfl
    · exact Or.inr (List.mem_cons_of_mem _ h)

theorem bumpScore_apply (f : Scores) (t : DataType) (n : Nat) (u : DataType) :
    bumpScore f t n u = if u = t then f u + n else f u := rfl

theorem ite_scores_apply (c : Prop) [Decidable c] (f g : Scores) (u : DataType) :
    (if c then f else g) u = if c then f u else g u := by split <;> rfl

/-- Claim C8: for every column of an untyped row-slice input, type inference
samples at most the first 10 rows' non-empty cells (part 1), classifies a
column with zero valid sampled cells as Generic (part 2), accepts a non-Generic
result only when it has the highest accumulated score and that score reaches
the count-proportional threshold — `3·validValues` (30% of the 10-per-hit
scale) for Name and `5·validValues` (50%) for every other category (parts 3
and 6) — falls back to Generic when every category misses its own threshold
(part 4, stated so it is independent of Go's unspecified map iteration order),
and scores each pattern hit 10 points except name hits, which score half
weight, 5 (part 5). -/
theorem claim_C8 :
    (∀ (ps : patternSet) (data : List (List String)) (col : Nat),
      inferSingleColumnType (data.take 10) col ps = inferSingleColumnType data col ps) ∧
    (∀ scores : Scores, selectBestType scores 0 = .TypeGeneric) ∧
    (∀ (scores : Scores) (valid : Nat) (t : DataType),
      selectBestType scores valid = t → t ≠ .TypeGeneric →
      (∀ u ∈ allScoredTypes, scores u ≤ scores t) ∧
      getConfidenceThreshold t valid ≤ scores t) ∧
    (∀ (scores : Scores) (valid : Nat), valid ≠ 0 →
      (∀ u ∈ allScoredTypes, scores u < getConfidenceThreshold u valid) →
      selectBestType scores valid = .TypeGeneric) ∧
    (∀ (ps : patternSet) (v : String) (scores : Scores),
      scoreValue ps v scores .TypeEmail =
        scores .TypeEmail + (if ps.email v then 10 else 0) ∧
      scoreValue ps v scores .TypePhone =
        scores .TypePhone + (if ps.phone v then 10 else 0) ∧
      scoreValue ps v scores .TypeSSN =
        scores .TypeSSN + (if ps.ssn v then 10 else 0) ∧
      scoreValue ps v scores .TypeCreditCard =
        scores .TypeCreditCard + (if ps.creditCard v then 10 else 0) ∧
      scoreValue ps v scores .TypeAddress =
        scores .TypeAddress + (if ps.address v || ps.addressWord v then 10 else 0) ∧
      scoreValue ps v scores .TypeName =
        scores .TypeName + (if ps.name v && !ps.addressWord v then 5 else 0) ∧
      scoreValue ps v scores .TypeGeneric = scores .TypeGeneric) ∧
    (∀ valid : Nat, getConfidenceThreshold .TypeName valid = valid * 3 ∧
      ∀ t : DataType, t ≠ .TypeName → getConfidenceThreshold t valid = valid * 5) := by
  refine ⟨?_, ?_, ?_, ?_, ?_, ?_⟩
  · intro ps data col
    unfold inferSingleColumnType scoreColumnValues
    rw [List.take_take]
    norm_num
  · intro scores
    simp [selectBestType]
  · intro scores valid t hsel hne
    simp only [selectBestType, findHighestScoringType] at hsel
    by_cases h0 : valid = 0
    · rw [if_pos h0] at hsel
      exact absurd hsel.symm hne
    · rw [if_neg h0] at hsel
      split at hsel
      · next hth =>
        subst hsel
        have hinv := fhst_inv scores allScoredTypes (.TypeGeneric, 0) (Or.inr ⟨rfl, rfl⟩)
        rcases hinv with hinv | ⟨hg, -⟩
        · constructor
          · intro u hu
            rw [hinv]
            exact fhst_mem_le scores allScoredTypes _ u hu
          · rw [hinv]
            exact hth
        · exact absurd hg hne
      · exact absurd hsel.symm hne
  · intro scores valid h0 hall
    simp only [selectBestType, findHighestScoringType]
    rw [if_neg h0]
    have hinv := fhst_inv scores allScoredTypes (.TypeGeneric, 0) (Or.inr ⟨rfl, rfl⟩)
    have hmem := fhst_fst_mem scores allScoredTypes (.TypeGeneric, 0)
    split
    · next hth =>
      rcases hinv with hinv | ⟨hg, -⟩
      · exfalso
        have hfm : (allScoredTypes.foldl
            (fun acc t => if scores t > acc.2 then (t, scores t) else acc)
            (.TypeGeneric, 0)).1 ∈ allScoredTypes := by
          rcases hmem with h | h
          · rw [h]
            decide
          · exact h
        have hlt := hall _ hfm
        rw [hinv] at hlt
        omega
      · exact hg
    · rfl
  · intro ps v scores
    refine ⟨?_, ?_, ?_, ?_, ?_, ?_, ?_⟩ <;>
      (simp only [scoreValue, ite_scores_apply, bumpScore_apply]
       simp
       try (split <;> simp))
  · intro valid
    refine ⟨rfl, ?_⟩
    intro t ht
    unfold getConfidenceThreshold
    rw [if_neg ht]

/-- Witness for C8 at concrete inputs: a score table with Email at 10 over one
valid value selects Email (highest score, threshold 5 reached); the all-zero
table over one valid value falls back to Generic; and the non-Name threshold
evaluates to 50% of the 10-point scale. -/
theorem claim_C8_witness :
    ((∀ u ∈ allScoredTypes,
        (fun t => if t = DataType.TypeEmail then (10:Nat) else 0) u ≤
          (fun t => if t = DataType.TypeEmail then (10:Nat) else 0) DataType.TypeEmail) ∧
      getConfidenceThreshold .TypeEmail 1 ≤
        (fun t => if t = DataType.TypeEmail then (10:Nat) else 0) DataType.TypeEmail) ∧
    selectBestType (fun _ => 0) 1 = .TypeGeneric ∧
    getConfidenceThreshold .TypeGeneric 7 = 7 * 5 := by
  refine ⟨?_, ?_, ?_⟩
  · exact claim_C8.2.2.1 (fun t => if t = DataType.TypeEmail then (10:Nat) else 0) 1
      .TypeEmail (by decide) (by decide)
  · exact claim_C8.2.2.2.1 (fun _ => 0) 1 (by decide) (by decide)
  · exact (claim_C8.2.2.2.2.2 7).2 .TypeGeneric (by decide)

/-! ### Claim C9: the Text transform never returns an error -/

/-- Claim C9: for every input string the Text transform returns a nil error
(both return paths of the source pair the result with `nil`), and the empty
string returns the empty string with no error, leaving the mapping state
untouched — no matcher pass runs. -/
theorem claim_C9 (d : Deidentifier) (s : String) (st : MapTables) :
    (d.Text s st).1.2 = none ∧ d.Text "" st = (("", none), st) := by
  constructor
  · unfold Deidentifier.Text
    split <;> rfl
  · rfl
